import Mathlib

/-!
Shallow embedding of the perception-and-navigation core of a tile-based
stealth game: the guard awareness state machine (`guard_states.py`), grid
A* pathfinding (`pathfinding.py`), and ray-cast visibility geometry
(`utils.py`, `entities.py`).  Python float arithmetic is modelled exactly
by `ℚ` where the code only adds, multiplies, divides and compares, and by
`ℝ` where it uses `sqrt` / `atan2`.
-/

namespace HunterAI

/- Rational arithmetic in Batteries is `@[irreducible]`; concrete runs of the
embedded code are evaluated by `decide`, which needs these to reduce. -/
attribute [local semireducible] Rat.add Rat.mul Rat.inv Rat.sub Rat.ofScientific

/-! ### guard_states.py — `GuardState`, `DetectionLevel`, `GuardStateMachine` -/

/-- `GuardState` enum from `guard_states.py`. -/
inductive GuardState where
  | PATROL
  | SUSPICIOUS
  | ALERTED
  | SEARCHING
  deriving DecidableEq, Repr

/-- `DetectionLevel`: tracks detection progress (`guard_states.py` lines 18-42). -/
structure DetectionLevel where
  value : ℚ
  threshold : ℚ
  decay_rate : ℚ
  deriving DecidableEq, Repr

/-- `DetectionLevel.__init__`: value 0.0, given threshold, decay rate 2.0. -/
def DetectionLevel.init (detection_threshold : ℚ) : DetectionLevel :=
  { value := 0, threshold := detection_threshold, decay_rate := 2 }

/-- `DetectionLevel.update_seeing`: raise the value by `delta_time / threshold`
clamped at 1 while visible, else lower it by
`delta_time * decay_rate / threshold` clamped at 0. -/
def DetectionLevel.update_seeing (d : DetectionLevel) (delta_time : ℚ) (can_see : Bool) :
    DetectionLevel :=
  if can_see then
    { d with value := min 1 (d.value + delta_time / d.threshold) }
  else
    { d with value := max 0 (d.value - delta_time * d.decay_rate / d.threshold) }

/-- `DetectionLevel.is_suspicious`: `0.2 <= value < 0.5`. -/
def DetectionLevel.is_suspicious (d : DetectionLevel) : Bool :=
  decide (0.2 ≤ d.value ∧ d.value < 0.5)

/-- `DetectionLevel.is_alerted`: `value >= 1.0`. -/
def DetectionLevel.is_alerted (d : DetectionLevel) : Bool :=
  decide (1 ≤ d.value)

/-- `DetectionLevel.reset`: clear detection. -/
def DetectionLevel.reset (d : DetectionLevel) : DetectionLevel :=
  { d with value := 0 }

/-- One event of claim C1: either an `update_seeing` call or a `reset` call. -/
inductive DetectionEvent where
  | update (delta_time : ℚ) (can_see : Bool)
  | reset
  deriving DecidableEq, Repr

/-- A `DetectionEvent` is a duration event: `update` carries a nonnegative
`delta_time`; `reset` carries nothing. -/
def DetectionEvent.nonneg : DetectionEvent → Prop
  | .update dt _ => 0 ≤ dt
  | .reset => True

instance : DecidablePred DetectionEvent.nonneg := by
  intro e
  cases e <;> simp [DetectionEvent.nonneg] <;> infer_instance

/-- Fold a sequence of `update_seeing` / `reset` calls over a `DetectionLevel`. -/
def DetectionLevel.run (d : DetectionLevel) : List DetectionEvent → DetectionLevel
  | [] => d
  | .update dt s :: es => (d.update_seeing dt s).run es
  | .reset :: es => d.reset.run es

theorem DetectionLevel.update_seeing_threshold (d : DetectionLevel) (dt : ℚ) (s : Bool) :
    (d.update_seeing dt s).threshold = d.threshold := by
  unfold update_seeing; split <;> rfl

theorem DetectionLevel.update_seeing_decay (d : DetectionLevel) (dt : ℚ) (s : Bool) :
    (d.update_seeing dt s).decay_rate = d.decay_rate := by
  unfold update_seeing; split <;> rfl

theorem DetectionLevel.update_seeing_bounds (d : DetectionLevel) (dt : ℚ) (s : Bool)
    (hθ : 0 < d.threshold) (hdec : 0 ≤ d.decay_rate) (hdt : 0 ≤ dt)
    (h0 : 0 ≤ d.value) (h1 : d.value ≤ 1) :
    0 ≤ (d.update_seeing dt s).value ∧ (d.update_seeing dt s).value ≤ 1 := by
  unfold update_seeing
  have hq : 0 ≤ dt / d.threshold := div_nonneg hdt hθ.le
  have hq' : 0 ≤ dt * d.decay_rate / d.threshold :=
    div_nonneg (mul_nonneg hdt hdec) hθ.le
  split
  · exact ⟨le_min (by norm_num) (by linarith), min_le_left _ _⟩
  · exact ⟨le_max_left _ _, max_le (by norm_num) (by linarith)⟩

theorem DetectionLevel.run_bounds (evs : List DetectionEvent) (d : DetectionLevel)
    (hθ : 0 < d.threshold) (hdec : 0 ≤ d.decay_rate)
    (hevs : ∀ e ∈ evs, e.nonneg) (h0 : 0 ≤ d.value) (h1 : d.value ≤ 1) :
    0 ≤ (d.run evs).value ∧ (d.run evs).value ≤ 1 := by
  induction evs generalizing d with
  | nil => exact ⟨h0, h1⟩
  | cons e es ih =>
    cases e with
    | update dt s =>
      have hdt : 0 ≤ dt := hevs _ (List.mem_cons_self _ _)
      have hb := d.update_seeing_bounds dt s hθ hdec hdt h0 h1
      exact ih _ (by rw [DetectionLevel.update_seeing_threshold]; exact hθ)
        (by rw [DetectionLevel.update_seeing_decay]; exact hdec)
        (fun e he => hevs e (List.mem_cons_of_mem _ he)) hb.1 hb.2
    | reset =>
      exact ih _ hθ hdec (fun e he => hevs e (List.mem_cons_of_mem _ he))
        (by simp [DetectionLevel.reset]) (by simp [DetectionLevel.reset])

/-- C1: for every sequence of `DetectionLevel.update_seeing` calls (any
nonnegative `delta_time` durations, any visibility booleans, interleaved with
`reset` calls), starting from a freshly constructed `DetectionLevel` with
positive threshold (initial value 0.0), the detection value stays within
[0,1] after every call. -/
theorem C1_detection_clamped (θ : ℚ) (hθ : 0 < θ) (evs : List DetectionEvent)
    (hevs : ∀ e ∈ evs, e.nonneg) :
    0 ≤ ((DetectionLevel.init θ).run evs).value ∧
      ((DetectionLevel.init θ).run evs).value ≤ 1 :=
  DetectionLevel.run_bounds evs (DetectionLevel.init θ) hθ (by norm_num [DetectionLevel.init])
    hevs (by norm_num [DetectionLevel.init]) (by norm_num [DetectionLevel.init])

/-- Witness for C1: the default threshold 0.3 and a concrete call sequence. -/
theorem C1_detection_clamped_witness :
    (0 : ℚ) < 0.3 ∧
      0 ≤ ((DetectionLevel.init 0.3).run
            [.update 0.1 true, .update 5 false, .reset, .update 1 true]).value ∧
      ((DetectionLevel.init 0.3).run
            [.update 0.1 true, .update 5 false, .reset, .update 1 true]).value ≤ 1 :=
  ⟨by norm_num,
   C1_detection_clamped 0.3 (by norm_num)
     [.update 0.1 true, .update 5 false, .reset, .update 1 true] (by decide)⟩

/-- `GuardStateMachine` fields (`guard_states.py` lines 45-69); the durations
are set in `__init__` and never reassigned anywhere in the repository. -/
structure GuardStateMachine where
  state : GuardState
  detection : DetectionLevel
  suspicious_timer : ℚ
  suspicious_duration : ℚ
  search_timer : ℚ
  search_duration : ℚ
  lost_sight_timer : ℚ
  lost_sight_delay : ℚ
  last_known_position : Option (ℚ × ℚ)
  investigation_pos : Option (ℚ × ℚ)
  deriving DecidableEq, Repr

/-- `GuardStateMachine.__init__`. -/
def GuardStateMachine.init (detection_threshold : ℚ) : GuardStateMachine where
  state := .PATROL
  detection := .init detection_threshold
  suspicious_timer := 0
  suspicious_duration := 2
  search_timer := 0
  search_duration := 6
  lost_sight_timer := 0
  lost_sight_delay := 3
  last_known_position := none
  investigation_pos := none

/-- `GuardStateMachine._update_patrol`. -/
def GuardStateMachine.update_patrol (g : GuardStateMachine) (_delta_time : ℚ)
    (_can_see_player : Bool) (player_pos : ℚ × ℚ) : GuardStateMachine :=
  if g.detection.is_suspicious then
    { g with state := .SUSPICIOUS, suspicious_timer := 0, investigation_pos := some player_pos }
  else if g.detection.is_alerted then
    { g with state := .ALERTED }
  else g

/-- `GuardStateMachine._update_suspicious`. -/
def GuardStateMachine.update_suspicious (g : GuardStateMachine) (delta_time : ℚ)
    (can_see_player : Bool) : GuardStateMachine :=
  let g := { g with suspicious_timer := g.suspicious_timer + delta_time }
  if g.detection.is_alerted then
    { g with state := .ALERTED, suspicious_timer := 0 }
  else if g.suspicious_duration ≤ g.suspicious_timer ∧ can_see_player = false then
    { g with state := .PATROL, detection := g.detection.reset, suspicious_timer := 0,
             investigation_pos := none }
  else g

/-- `GuardStateMachine._update_alerted` (two independent `if`s, as in the source). -/
def GuardStateMachine.update_alerted (g : GuardStateMachine) (_delta_time : ℚ)
    (can_see_player : Bool) : GuardStateMachine :=
  let g :=
    if can_see_player = false ∧ g.lost_sight_delay ≤ g.lost_sight_timer then
      { g with state := .SEARCHING, search_timer := 0 }
    else g
  if can_see_player then { g with lost_sight_timer := 0 } else g

/-- `GuardStateMachine._update_searching`. -/
def GuardStateMachine.update_searching (g : GuardStateMachine) (delta_time : ℚ)
    (_can_see_player : Bool) (_guard_pos : ℚ × ℚ) : GuardStateMachine :=
  let g := { g with search_timer := g.search_timer + delta_time }
  if g.detection.is_alerted then
    { g with state := .ALERTED, search_timer := 0 }
  else if g.search_duration ≤ g.search_timer then
    { g with state := .PATROL, detection := g.detection.reset, search_timer := 0,
             last_known_position := none }
  else g

/-- `GuardStateMachine.update`: detection update, last-known-position /
lost-sight-timer bookkeeping, then the per-state transition. -/
def GuardStateMachine.update (g : GuardStateMachine) (delta_time : ℚ) (can_see_player : Bool)
    (player_pos : ℚ × ℚ) (guard_pos : ℚ × ℚ) : GuardStateMachine :=
  let g := { g with detection := g.detection.update_seeing delta_time can_see_player }
  let g :=
    if can_see_player then
      { g with last_known_position := some player_pos, lost_sight_timer := 0 }
    else
      { g with lost_sight_timer := g.lost_sight_timer + delta_time }
  match g.state with
  | .PATROL => g.update_patrol delta_time can_see_player player_pos
  | .SUSPICIOUS => g.update_suspicious delta_time can_see_player
  | .ALERTED => g.update_alerted delta_time can_see_player
  | .SEARCHING => g.update_searching delta_time can_see_player guard_pos

/-- One call to `GuardStateMachine.update`. -/
structure GuardInput where
  delta_time : ℚ
  can_see_player : Bool
  player_pos : ℚ × ℚ
  guard_pos : ℚ × ℚ
  deriving DecidableEq, Repr

/-- Fold a sequence of `update` calls over a `GuardStateMachine`. -/
def GuardStateMachine.run (g : GuardStateMachine) : List GuardInput → GuardStateMachine
  | [] => g
  | i :: is => (g.update i.delta_time i.can_see_player i.player_pos i.guard_pos).run is

/-- Total duration of a sequence of update calls. -/
def timeSum (L : List GuardInput) : ℚ :=
  (L.map (·.delta_time)).sum

/-- A phase of claim C2: every call has positive duration and the stated
visibility flag. -/
def phase (b : Bool) (L : List GuardInput) : Prop :=
  ∀ i ∈ L, i.can_see_player = b ∧ 0 < i.delta_time

instance (b : Bool) (L : List GuardInput) : Decidable (phase b L) := by
  unfold phase; infer_instance

theorem DetectionLevel.is_suspicious_iff (d : DetectionLevel) :
    d.is_suspicious = true ↔ (0.2 ≤ d.value ∧ d.value < 0.5) := by
  simp [DetectionLevel.is_suspicious]

theorem DetectionLevel.is_alerted_iff (d : DetectionLevel) :
    d.is_alerted = true ↔ 1 ≤ d.value := by
  simp [DetectionLevel.is_alerted]

theorem DetectionLevel.update_seeing_true (d : DetectionLevel) (dt : ℚ) :
    d.update_seeing dt true = { d with value := min 1 (d.value + dt / d.threshold) } := rfl

theorem DetectionLevel.update_seeing_false (d : DetectionLevel) (dt : ℚ) :
    d.update_seeing dt false =
      { d with value := max 0 (d.value - dt * d.decay_rate / d.threshold) } := rfl

/-- The configuration constants of a guard: detection threshold `θ` and the
durations fixed by `__init__`. -/
def GuardStateMachine.config_ok (θ : ℚ) (g : GuardStateMachine) : Prop :=
  g.detection.threshold = θ ∧ g.detection.decay_rate = 2 ∧ g.suspicious_duration = 2 ∧
    g.search_duration = 6 ∧ g.lost_sight_delay = 3

theorem GuardStateMachine.update_config_ok {θ : ℚ} {g : GuardStateMachine}
    (h : g.config_ok θ) (dt : ℚ) (see : Bool) (pp gp : ℚ × ℚ) :
    (g.update dt see pp gp).config_ok θ := by
  obtain ⟨h1, h2, h3, h4, h5⟩ := h
  unfold GuardStateMachine.update GuardStateMachine.update_patrol
    GuardStateMachine.update_suspicious GuardStateMachine.update_alerted
    GuardStateMachine.update_searching
  cases see <;> cases hst : g.state <;>
    simp_all [GuardStateMachine.config_ok, DetectionLevel.update_seeing,
      DetectionLevel.reset] <;> split_ifs <;> simp_all

theorem min_one_div_add (θ s dt : ℚ) (hθ : 0 < θ) (hdt : 0 ≤ dt) :
    min 1 (min 1 (s / θ) + dt / θ) = min 1 ((s + dt) / θ) := by
  have hd : 0 ≤ dt / θ := div_nonneg hdt hθ.le
  rw [← div_add_div_same]
  rcases le_or_lt (s / θ) 1 with h | h
  · rw [min_eq_right h]
  · rw [min_eq_left h.le, min_eq_left (by linarith), min_eq_left (by linarith)]

/-- Invariant while the target stays continuously visible; `s` is elapsed time. -/
def Inv1 (θ s : ℚ) (g : GuardStateMachine) : Prop :=
  g.config_ok θ ∧
  g.detection.value = min 1 (s / θ) ∧
  g.lost_sight_timer = 0 ∧
  g.state ≠ .SEARCHING ∧
  (θ ≤ s → g.state = .ALERTED)

theorem Inv1_update {θ s : ℚ} {g : GuardStateMachine} (hθ : 0 < θ) {dt : ℚ} (hdt : 0 < dt)
    (pp gp : ℚ × ℚ) (h : Inv1 θ s g) :
    Inv1 θ (s + dt) (g.update dt true pp gp) := by
  obtain ⟨⟨hth, hdec, hsd, hsearchd, hlsd⟩, hv, hl, hns, hal⟩ := h
  have hkey : min 1 (g.detection.value + dt / g.detection.threshold) = min 1 ((s + dt) / θ) := by
    rw [hth, hv, min_one_div_add θ s dt hθ hdt.le]
  have halert : θ ≤ s + dt → min 1 ((s + dt) / θ) = 1 := fun hle =>
    min_eq_left ((one_le_div hθ).2 hle)
  cases hst : g.state with
  | PATROL =>
    simp only [GuardStateMachine.update, GuardStateMachine.update_patrol,
      DetectionLevel.update_seeing_true, hst, if_true, ite_true, eq_self_iff_true,
      Bool.true_eq_false, and_false, false_and, if_false, ite_false]
    split_ifs with h1 h2
    · refine ⟨⟨hth, hdec, hsd, hsearchd, hlsd⟩, hkey, rfl, by simp, fun hle => ?_⟩
      rw [DetectionLevel.is_suspicious_iff] at h1
      exfalso
      rw [hkey, halert hle] at h1
      norm_num at h1
    · exact ⟨⟨hth, hdec, hsd, hsearchd, hlsd⟩, hkey, rfl, by simp, fun _ => rfl⟩
    · refine ⟨⟨hth, hdec, hsd, hsearchd, hlsd⟩, hkey, rfl, by simp, fun hle => ?_⟩
      rw [DetectionLevel.is_alerted_iff] at h2
      exact absurd (by rw [hkey, halert hle]) h2
  | SUSPICIOUS =>
    simp only [GuardStateMachine.update, GuardStateMachine.update_suspicious,
      DetectionLevel.update_seeing_true, hst, if_true, ite_true, eq_self_iff_true,
      Bool.true_eq_false, and_false, false_and, if_false, ite_false]
    split_ifs with h1
    · exact ⟨⟨hth, hdec, hsd, hsearchd, hlsd⟩, hkey, rfl, by simp, fun _ => rfl⟩
    · refine ⟨⟨hth, hdec, hsd, hsearchd, hlsd⟩, hkey, rfl, by simp, fun hle => ?_⟩
      rw [DetectionLevel.is_alerted_iff] at h1
      exact absurd (by rw [hkey, halert hle]) h1
  | ALERTED =>
    simp only [GuardStateMachine.update, GuardStateMachine.update_alerted,
      DetectionLevel.update_seeing_true, hst, if_true, ite_true, eq_self_iff_true,
      Bool.true_eq_false, and_false, false_and, if_false, ite_false]
    exact ⟨⟨hth, hdec, hsd, hsearchd, hlsd⟩, hkey, rfl, by simp, fun _ => rfl⟩
  | SEARCHING => exact absurd hst hns
theorem timeSum_nonneg {b : Bool} {L : List GuardInput} (h : phase b L) : 0 ≤ timeSum L := by
  induction L with
  | nil => simp [timeSum]
  | cons i is ih =>
    have hi := h i (List.mem_cons_self _ _)
    have hrest := ih (fun j hj => h j (List.mem_cons_of_mem _ hj))
    have : timeSum (i :: is) = i.delta_time + timeSum is := by simp [timeSum]
    rw [this]
    linarith [hi.2]

theorem Inv1_run {θ : ℚ} (hθ : 0 < θ) (L : List GuardInput) :
    phase true L → ∀ s g, Inv1 θ s g → Inv1 θ (s + timeSum L) (g.run L) := by
  induction L with
  | nil => intro _ s g h; simpa [timeSum] using h
  | cons i is ih =>
    intro hL s g h
    obtain ⟨hsee, hdt⟩ := hL i (List.mem_cons_self _ _)
    have hts : timeSum (i :: is) = i.delta_time + timeSum is := by simp [timeSum]
    have hstep := Inv1_update hθ hdt i.player_pos i.guard_pos h
    have hrec := ih (fun j hj => hL j (List.mem_cons_of_mem _ hj)) (s + i.delta_time) _ hstep
    rw [hts, ← add_assoc]
    show Inv1 θ _ ((g.update i.delta_time i.can_see_player i.player_pos i.guard_pos).run is)
    rw [hsee]
    exact hrec

/-- Invariant while the target is hidden after a full alert: `s` is the hidden
time elapsed so far, bounded overall by `lost_sight_delay + search_duration = 9`. -/
def Inv2 (θ s : ℚ) (g : GuardStateMachine) : Prop :=
  g.config_ok θ ∧
  g.lost_sight_timer = s ∧
  g.detection.value ≤ 1 ∧ (0 < s → g.detection.value < 1) ∧
  ((g.state = .ALERTED ∧ s < 3) ∨
    (g.state = .SEARCHING ∧ 0 ≤ g.search_timer ∧ g.search_timer ≤ s - 3))

theorem Inv2_update {θ s : ℚ} {g : GuardStateMachine} (hθ : 0 < θ) {dt : ℚ}
    (hdt : 0 < dt) (pp gp : ℚ × ℚ) (h9 : s + dt < 9)
    (h : Inv2 θ s g) : Inv2 θ (s + dt) (g.update dt false pp gp) := by
  obtain ⟨⟨hth, hdec, hsd, hsearchd, hlsd⟩, hls, hv1, hvlt, hcase⟩ := h
  have hpos : 0 < dt * g.detection.decay_rate / g.detection.threshold := by
    rw [hdec, hth]; positivity
  have hvlt' :
      max 0 (g.detection.value - dt * g.detection.decay_rate / g.detection.threshold) < 1 :=
    max_lt (by norm_num) (by linarith)
  rcases hcase with ⟨hst, hslt⟩ | ⟨hst, hts0, hts⟩
  · simp only [GuardStateMachine.update, GuardStateMachine.update_alerted,
      DetectionLevel.update_seeing_false, hst, Bool.false_eq_true, if_false, ite_false,
      eq_self_iff_true, true_and, if_true, ite_true]
    split_ifs with hcond
    · rw [hlsd, hls] at hcond
      exact ⟨⟨hth, hdec, hsd, hsearchd, hlsd⟩, by rw [hls], hvlt'.le, fun _ => hvlt',
        Or.inr ⟨rfl, le_refl 0, by linarith⟩⟩
    · rw [hlsd, hls] at hcond
      exact ⟨⟨hth, hdec, hsd, hsearchd, hlsd⟩, by rw [hls], hvlt'.le, fun _ => hvlt',
        Or.inl ⟨rfl, by linarith⟩⟩
  · simp only [GuardStateMachine.update, GuardStateMachine.update_searching,
      DetectionLevel.update_seeing_false, hst, Bool.false_eq_true, if_false, ite_false,
      eq_self_iff_true, true_and, if_true, ite_true]
    split_ifs with h1 h2
    · rw [DetectionLevel.is_alerted_iff] at h1
      exact absurd h1 (by push_neg; exact hvlt')
    · rw [hsearchd] at h2
      exfalso
      linarith
    · exact ⟨⟨hth, hdec, hsd, hsearchd, hlsd⟩, by rw [hls], hvlt'.le, fun _ => hvlt',
        Or.inr ⟨rfl, by linarith, by linarith⟩⟩

theorem Inv2_run {θ : ℚ} (hθ : 0 < θ) (L : List GuardInput) :
    phase false L → ∀ s g, s + timeSum L < 9 → Inv2 θ s g →
      Inv2 θ (s + timeSum L) (g.run L) := by
  induction L with
  | nil => intro _ s g _ h; simpa [timeSum] using h
  | cons i is ih =>
    intro hL s g hb h
    obtain ⟨hsee, hdt⟩ := hL i (List.mem_cons_self _ _)
    have hts : timeSum (i :: is) = i.delta_time + timeSum is := by simp [timeSum]
    have hrest : phase false is := fun j hj => hL j (List.mem_cons_of_mem _ hj)
    have hnn : 0 ≤ timeSum is := timeSum_nonneg hrest
    rw [hts] at hb
    have hstep := Inv2_update hθ hdt i.player_pos i.guard_pos (by linarith) h
    have hrec := ih hrest (s + i.delta_time) _ (by linarith) hstep
    rw [hts, ← add_assoc]
    show Inv2 θ _ ((g.update i.delta_time i.can_see_player i.player_pos i.guard_pos).run is)
    rw [hsee]
    exact hrec

/-- Invariant for the search phase: `st0` is the search timer on entry, `s`
the hidden time elapsed in this phase. -/
def Inv3 (θ st0 s : ℚ) (g : GuardStateMachine) : Prop :=
  g.config_ok θ ∧
  ((g.state = .SEARCHING ∧ g.search_timer = st0 + s ∧ st0 + s < 6 ∧ g.detection.value < 1) ∨
    (g.state = .PATROL ∧ g.detection.value = 0))

theorem Inv3_update {θ st0 s : ℚ} {g : GuardStateMachine} (hθ : 0 < θ) {dt : ℚ}
    (hdt : 0 < dt) (pp gp : ℚ × ℚ)
    (h : Inv3 θ st0 s g) : Inv3 θ st0 (s + dt) (g.update dt false pp gp) := by
  obtain ⟨⟨hth, hdec, hsd, hsearchd, hlsd⟩, hcase⟩ := h
  have hpos : 0 < dt * g.detection.decay_rate / g.detection.threshold := by
    rw [hdec, hth]; positivity
  rcases hcase with ⟨hst, htmr, hlt, hvlt⟩ | ⟨hst, hv0⟩
  · have hvlt' :
        max 0 (g.detection.value - dt * g.detection.decay_rate / g.detection.threshold) < 1 :=
      max_lt (by norm_num) (by linarith)
    simp only [GuardStateMachine.update, GuardStateMachine.update_searching,
      DetectionLevel.update_seeing_false, hst, Bool.false_eq_true, if_false, ite_false,
      eq_self_iff_true, true_and, if_true, ite_true]
    split_ifs with h1 h2
    · rw [DetectionLevel.is_alerted_iff] at h1
      exact absurd h1 (by push_neg; exact hvlt')
    · exact ⟨⟨hth, hdec, hsd, hsearchd, hlsd⟩,
        Or.inr ⟨rfl, by simp [DetectionLevel.reset]⟩⟩
    · exact ⟨⟨hth, hdec, hsd, hsearchd, hlsd⟩,
        Or.inl ⟨rfl, by rw [htmr]; ring, by
          rw [hsearchd, htmr] at h2
          push_neg at h2
          linarith, hvlt'⟩⟩
  · have hv0' :
        max 0 (g.detection.value - dt * g.detection.decay_rate / g.detection.threshold) = 0 := by
      rw [hv0]
      exact max_eq_left (by linarith)
    simp only [GuardStateMachine.update, GuardStateMachine.update_patrol,
      DetectionLevel.update_seeing_false, hst, Bool.false_eq_true, if_false, ite_false,
      eq_self_iff_true, true_and, if_true, ite_true]
    split_ifs with h1 h2
    · rw [DetectionLevel.is_suspicious_iff] at h1
      rw [hv0'] at h1
      norm_num at h1
    · rw [DetectionLevel.is_alerted_iff] at h2
      rw [hv0'] at h2
      norm_num at h2
    · exact ⟨⟨hth, hdec, hsd, hsearchd, hlsd⟩, Or.inr ⟨rfl, hv0'⟩⟩

theorem Inv3_run {θ st0 : ℚ} (hθ : 0 < θ) (L : List GuardInput) :
    phase false L → ∀ s g, Inv3 θ st0 s g → Inv3 θ st0 (s + timeSum L) (g.run L) := by
  induction L with
  | nil => intro _ s g h; simpa [timeSum] using h
  | cons i is ih =>
    intro hL s g h
    obtain ⟨hsee, hdt⟩ := hL i (List.mem_cons_self _ _)
    have hts : timeSum (i :: is) = i.delta_time + timeSum is := by simp [timeSum]
    have hstep := Inv3_update hθ hdt i.player_pos i.guard_pos h
    have hrec := ih (fun j hj => hL j (List.mem_cons_of_mem _ hj)) (s + i.delta_time) _ hstep
    rw [hts, ← add_assoc]
    show Inv3 θ st0 _ ((g.update i.delta_time i.can_see_player i.player_pos i.guard_pos).run is)
    rw [hsee]
    exact hrec
theorem Inv1_init {θ : ℚ} (hθ : 0 < θ) : Inv1 θ 0 (GuardStateMachine.init θ) := by
  refine ⟨⟨rfl, rfl, rfl, rfl, rfl⟩, ?_, rfl, by simp [GuardStateMachine.init], fun hle => ?_⟩
  · simp [GuardStateMachine.init, DetectionLevel.init]
  · exfalso; linarith

/-- C2 (amended): starting in Patrol with detection 0, a phase of positive-duration
visible updates of total time ≥ `detection_threshold` leaves the guard Alerted; a
following hidden phase of total time ≥ `lost_sight_delay` but shorter than
`lost_sight_delay + search_duration` leaves it Searching; a further hidden phase of
total time ≥ `search_duration` returns it to Patrol with detection exactly 0. -/
theorem C2_round_trip_amended (θ : ℚ) (hθ : 0 < θ) (L1 L2 L3 : List GuardInput)
    (h1 : phase true L1) (hs1 : θ ≤ timeSum L1)
    (h2 : phase false L2)
    (hs2 : (GuardStateMachine.init θ).lost_sight_delay ≤ timeSum L2)
    (hs2' : timeSum L2 <
      (GuardStateMachine.init θ).lost_sight_delay + (GuardStateMachine.init θ).search_duration)
    (h3 : phase false L3)
    (hs3 : (GuardStateMachine.init θ).search_duration ≤ timeSum L3) :
    ((GuardStateMachine.init θ).run L1).state = .ALERTED ∧
    (((GuardStateMachine.init θ).run L1).run L2).state = .SEARCHING ∧
    ((((GuardStateMachine.init θ).run L1).run L2).run L3).state = .PATROL ∧
    ((((GuardStateMachine.init θ).run L1).run L2).run L3).detection.value = 0 := by
  have e3 : (GuardStateMachine.init θ).lost_sight_delay = 3 := rfl
  have e6 : (GuardStateMachine.init θ).search_duration = 6 := rfl
  rw [e3] at hs2
  rw [e3, e6] at hs2'
  rw [e6] at hs3
  -- phase 1
  have hi1 := Inv1_run hθ L1 h1 0 _ (Inv1_init hθ)
  rw [zero_add] at hi1
  obtain ⟨hcfg1, hv1, hl1, -, hal1⟩ := hi1
  have hst1 : ((GuardStateMachine.init θ).run L1).state = .ALERTED := hal1 hs1
  refine ⟨hst1, ?_⟩
  -- phase 2
  have hbase2 : Inv2 θ 0 ((GuardStateMachine.init θ).run L1) :=
    ⟨hcfg1, hl1, hv1 ▸ min_le_left _ _, fun habs => absurd habs (by norm_num),
      Or.inl ⟨hst1, by norm_num⟩⟩
  have hi2 := Inv2_run hθ L2 h2 0 _ (by rw [zero_add]; linarith) hbase2
  rw [zero_add] at hi2
  obtain ⟨hcfg2, hl2, hv2le, hv2lt, hcase2⟩ := hi2
  rcases hcase2 with ⟨-, habs⟩ | ⟨hst2, hts0, hts2⟩
  · exfalso; linarith
  refine ⟨hst2, ?_⟩
  -- phase 3
  have hvlt2 : (((GuardStateMachine.init θ).run L1).run L2).detection.value < 1 :=
    hv2lt (by linarith)
  have hbase3 : Inv3 θ ((((GuardStateMachine.init θ).run L1).run L2)).search_timer 0
      (((GuardStateMachine.init θ).run L1).run L2) :=
    ⟨hcfg2, Or.inl ⟨hst2, (add_zero _).symm, by rw [add_zero]; linarith, hvlt2⟩⟩
  have hi3 := Inv3_run hθ L3 h3 0 _ hbase3
  rw [zero_add] at hi3
  obtain ⟨-, hcase3⟩ := hi3
  rcases hcase3 with ⟨-, -, habs, -⟩ | ⟨hst3, hv3⟩
  · exfalso; linarith
  exact ⟨hst3, hv3⟩

/-- Witness for C2's amended theorem at a concrete run: threshold 0.3; seen for
0.3 s, hidden for 4 s, hidden for another 6 s. -/
theorem C2_round_trip_amended_witness :
    ((GuardStateMachine.init 0.3).run [⟨0.3, true, (0, 0), (0, 0)⟩]).state = .ALERTED ∧
      ((((GuardStateMachine.init 0.3).run [⟨0.3, true, (0, 0), (0, 0)⟩]).run
          [⟨4, false, (0, 0), (0, 0)⟩]).state = .SEARCHING) ∧
      (((((GuardStateMachine.init 0.3).run [⟨0.3, true, (0, 0), (0, 0)⟩]).run
          [⟨4, false, (0, 0), (0, 0)⟩]).run [⟨6, false, (0, 0), (0, 0)⟩]).state = .PATROL) ∧
      (((((GuardStateMachine.init 0.3).run [⟨0.3, true, (0, 0), (0, 0)⟩]).run
          [⟨4, false, (0, 0), (0, 0)⟩]).run
            [⟨6, false, (0, 0), (0, 0)⟩]).detection.value = 0) := by
  have h := C2_round_trip_amended 0.3 (by norm_num) [⟨0.3, true, (0, 0), (0, 0)⟩]
    [⟨4, false, (0, 0), (0, 0)⟩] [⟨6, false, (0, 0), (0, 0)⟩]
    (by decide) (by decide) (by decide) (by decide) (by decide) (by decide) (by decide)
  exact ⟨h.1, h.2.1, h.2.2.1, h.2.2.2⟩

/-- C2 (counterexample to the claim as stated): with the default threshold 0.3,
see the target for 0.3 s (the guard is then Alerted), then lose sight for a
total of 10 s ≥ `lost_sight_delay`, split as 3 s + 7 s.  The claim says the
guard is then Searching, but it has already searched past `search_duration`
and is back in Patrol. -/
theorem C2_counterexample :
    (0 : ℚ) < 0.3 ∧
    phase true [⟨0.3, true, (0, 0), (0, 0)⟩] ∧
    (0.3 : ℚ) ≤ timeSum [⟨0.3, true, (0, 0), (0, 0)⟩] ∧
    phase false [⟨3, false, (0, 0), (0, 0)⟩, ⟨7, false, (0, 0), (0, 0)⟩] ∧
    (GuardStateMachine.init 0.3).lost_sight_delay ≤
      timeSum [⟨3, false, (0, 0), (0, 0)⟩, ⟨7, false, (0, 0), (0, 0)⟩] ∧
    ((GuardStateMachine.init 0.3).run [⟨0.3, true, (0, 0), (0, 0)⟩]).state = .ALERTED ∧
    (((GuardStateMachine.init 0.3).run [⟨0.3, true, (0, 0), (0, 0)⟩]).run
        [⟨3, false, (0, 0), (0, 0)⟩, ⟨7, false, (0, 0), (0, 0)⟩]).state ≠ .SEARCHING := by
  decide
/-! ### pathfinding.py — grid conversion, walkability, neighbors -/

/-- Axis-aligned rectangular obstacle in the arcade-sprite style: a center
plus a size, with `left`/`right`/`bottom`/`top` edge properties. -/
structure Obstacle (α : Type) where
  center_x : α
  center_y : α
  width : α
  height : α
  deriving DecidableEq, Repr

/-- Sprite `left` edge. -/
def Obstacle.left [Field α] (o : Obstacle α) : α := o.center_x - o.width / 2

/-- Sprite `right` edge. -/
def Obstacle.right [Field α] (o : Obstacle α) : α := o.center_x + o.width / 2

/-- Sprite `bottom` edge. -/
def Obstacle.bottom [Field α] (o : Obstacle α) : α := o.center_y - o.height / 2

/-- Sprite `top` edge. -/
def Obstacle.top [Field α] (o : Obstacle α) : α := o.center_y + o.height / 2

/-- Python `int(q)` on a float: truncation toward zero. -/
def py_int (q : ℚ) : ℤ := if q < 0 then ⌈q⌉ else ⌊q⌋

/-- `heuristic`: Manhattan distance. -/
def heuristic (x1 y1 x2 y2 : ℤ) : ℚ := ((|x2 - x1| + |y2 - y1| : ℤ) : ℚ)

/-- `world_to_grid`: divide world coordinates by the tile size and truncate. -/
def world_to_grid (world_x world_y : ℚ) (tile_size : ℤ) : ℤ × ℤ :=
  (py_int (world_x / (tile_size : ℚ)), py_int (world_y / (tile_size : ℚ)))

/-- `grid_to_world`: the world-space center of a tile. -/
def grid_to_world (grid_x grid_y : ℤ) (tile_size : ℤ) : ℚ × ℚ :=
  ((grid_x : ℚ) * (tile_size : ℚ) + (tile_size : ℚ) / 2,
   (grid_y : ℚ) * (tile_size : ℚ) + (tile_size : ℚ) / 2)

/-- The nine sample points of `is_walkable_grid`: the tile center plus eight
perimeter points at `check_radius`, diagonals scaled by `0.707`. -/
def check_points (world_x world_y check_radius : ℚ) : List (ℚ × ℚ) :=
  [(world_x, world_y),
   (world_x + check_radius, world_y),
   (world_x - check_radius, world_y),
   (world_x, world_y + check_radius),
   (world_x, world_y - check_radius),
   (world_x + check_radius * 0.707, world_y + check_radius * 0.707),
   (world_x - check_radius * 0.707, world_y + check_radius * 0.707),
   (world_x + check_radius * 0.707, world_y - check_radius * 0.707),
   (world_x - check_radius * 0.707, world_y - check_radius * 0.707)]

/-- A sample point hits an obstacle:
`obstacle.left <= x <= obstacle.right and obstacle.bottom <= y <= obstacle.top`
(closed containment on all four edges). -/
def point_in_obstacle (p : ℚ × ℚ) (o : Obstacle ℚ) : Bool :=
  decide (o.left ≤ p.1 ∧ p.1 ≤ o.right ∧ o.bottom ≤ p.2 ∧ p.2 ≤ o.top)

/-- `is_walkable_grid`: a cell is walkable iff none of the nine sample points
(at radius `player_radius + 4`) hits any obstacle. -/
def is_walkable_grid (grid_x grid_y : ℤ) (obstacles : List (Obstacle ℚ))
    (tile_size : ℤ) (player_radius : ℚ) : Bool :=
  let w := grid_to_world grid_x grid_y tile_size
  let check_radius := player_radius + 4
  (check_points w.1 w.2 check_radius).all fun p =>
    obstacles.all fun o => !(point_in_obstacle p o)

/-- `0 <= nx < grid_width and 0 <= ny < grid_height`. -/
def in_bounds (grid_width grid_height nx ny : ℤ) : Bool :=
  decide (0 ≤ nx ∧ nx < grid_width ∧ 0 ≤ ny ∧ ny < grid_height)

/-- `get_neighbors` (`pathfinding.py` lines 91-153): all in-bounds cardinal
neighbors (walkability is checked later, by the caller), then the in-bounds
diagonal neighbors whose two adjacent cardinal cells are in bounds
(`walkable_cardinals` collects in-bounds cardinal offsets) and walkable.  When
any of the optional arguments is absent, the fallback admits every in-bounds
diagonal. -/
def get_neighbors (x y grid_width grid_height : ℤ)
    (obstacles : Option (List (Obstacle ℚ))) (tile_size : Option ℤ)
    (player_radius : Option ℚ) : List (ℤ × ℤ × ℚ) :=
  let cardinal_directions : List (ℤ × ℤ × ℚ) :=
    [(0, 1, 1), (0, -1, 1), (1, 0, 1), (-1, 0, 1)]
  let diagonal_directions : List ((ℤ × ℤ × ℚ) × List (ℤ × ℤ)) :=
    [((1, 1, 1.4), [(1, 0), (0, 1)]),
     ((1, -1, 1.4), [(1, 0), (0, -1)]),
     ((-1, 1, 1.4), [(-1, 0), (0, 1)]),
     ((-1, -1, 1.4), [(-1, 0), (0, -1)])]
  let card := cardinal_directions.filter fun d =>
    in_bounds grid_width grid_height (x + d.1) (y + d.2.1)
  let cardinal_neighbors := card.map fun d => (x + d.1, y + d.2.1, d.2.2)
  let walkable_cardinals := card.map fun d => (d.1, d.2.1)
  match obstacles, tile_size, player_radius with
  | some obs, some ts, some pr =>
    let diag := diagonal_directions.filter fun d =>
      in_bounds grid_width grid_height (x + d.1.1) (y + d.1.2.1) &&
        d.2.all fun c => decide (c ∈ walkable_cardinals) &&
          is_walkable_grid (x + c.1) (y + c.2) obs ts pr
    cardinal_neighbors ++ diag.map fun d => (x + d.1.1, y + d.1.2.1, d.1.2.2)
  | _, _, _ =>
    let diag := diagonal_directions.filter fun d =>
      in_bounds grid_width grid_height (x + d.1.1) (y + d.1.2.1)
    cardinal_neighbors ++ diag.map fun d => (x + d.1.1, y + d.1.2.1, d.1.2.2)

/-! ### pathfinding.py — path simplification -/

/-- Integer square root by upward scan (structural recursion so that concrete
runs reduce); `isqrt_go_spec` shows it is `⌊√n⌋`. -/
def isqrt_go (n : ℕ) : ℕ → ℕ → ℕ
  | 0, k => k
  | fuel + 1, k => if (k + 1) * (k + 1) ≤ n then isqrt_go n fuel (k + 1) else k

/-- `⌊√n⌋` over `ℕ`. -/
def isqrt (n : ℕ) : ℕ := isqrt_go n n 0

theorem isqrt_go_spec (n : ℕ) :
    ∀ fuel k, k * k ≤ n → n ≤ k + fuel →
      isqrt_go n fuel k * isqrt_go n fuel k ≤ n ∧
        n < (isqrt_go n fuel k + 1) * (isqrt_go n fuel k + 1) := by
  intro fuel
  induction fuel with
  | zero =>
    intro k hk hn
    rw [isqrt_go]
    exact ⟨hk, by nlinarith⟩
  | succ fuel ih =>
    intro k hk hn
    rw [isqrt_go]
    split_ifs with h
    · exact ih (k + 1) h (by nlinarith)
    · exact ⟨hk, by omega⟩

/-- `isqrt` is the floor of the square root. -/
theorem isqrt_spec (n : ℕ) : isqrt n * isqrt n ≤ n ∧ n < (isqrt n + 1) * (isqrt n + 1) :=
  isqrt_go_spec n n 0 (by omega) (by omega)

/-- `num_samples` of `has_clear_path`: `int(sqrt(d2) / (tile_size / 2)) + 1`,
computed exactly over `ℚ` via the identity
`⌊√d2 / (t/2)⌋ = ⌊√(⌊4·d2/t²⌋)⌋` for `t > 0` and `d2 ≥ 0`
(`⌊√q⌋ = ⌊√(⌊q⌋)⌋` for rational `q ≥ 0`), with `isqrt` the integer √ floor. -/
def num_samples (d2 : ℚ) (tile_size : ℤ) : ℕ :=
  isqrt (⌊4 * d2 / ((tile_size : ℚ) * (tile_size : ℚ))⌋).toNat + 1

/-- `has_clear_path`: sample the segment at `tile_size/2` spacing and test each
sample against every obstacle rectangle inflated by `tile_size / 4`. -/
def has_clear_path (p1 p2 : ℚ × ℚ) (obstacles : List (Obstacle ℚ))
    (tile_size : ℤ) : Bool :=
  let d2 := (p2.1 - p1.1) ^ 2 + (p2.2 - p1.2) ^ 2
  let n := num_samples d2 tile_size
  let radius := (tile_size : ℚ) / 4
  (List.range (n + 1)).all fun i =>
    let t := (i : ℚ) / ((max n 1 : ℕ) : ℚ)
    let test_x := p1.1 + (p2.1 - p1.1) * t
    let test_y := p1.2 + (p2.2 - p1.2) * t
    obstacles.all fun o =>
      !(decide (o.left - radius ≤ test_x ∧ test_x ≤ o.right + radius ∧
                o.bottom - radius ≤ test_y ∧ test_y ≤ o.top + radius))

/-- The inner `for test_idx in range(current_idx + 2, len(path))` loop of
`simplify_path`: advance `furthest_idx` to each clear `test_idx`, stopping at
the first blocked one (`break`).  The loop is embedded with structural `fuel`
recursion; any `fuel ≥ path.length - test_idx` yields the loop's behavior,
since the loop runs at most that many iterations. -/
def scan_clear (path : List (ℚ × ℚ)) (obstacles : List (Obstacle ℚ)) (tile_size : ℤ)
    (current_idx : ℕ) : ℕ → ℕ → ℕ → ℕ
  | 0, _, furthest_idx => furthest_idx
  | fuel + 1, test_idx, furthest_idx =>
    if test_idx < path.length then
      if has_clear_path (path.getD current_idx (0, 0)) (path.getD test_idx (0, 0))
          obstacles tile_size then
        scan_clear path obstacles tile_size current_idx fuel (test_idx + 1) test_idx
      else furthest_idx
    else furthest_idx

theorem scan_clear_ge (path : List (ℚ × ℚ)) (obstacles : List (Obstacle ℚ))
    (tile_size : ℤ) (current_idx : ℕ) :
    ∀ fuel test_idx furthest_idx, furthest_idx ≤ test_idx →
      furthest_idx ≤ scan_clear path obstacles tile_size current_idx fuel test_idx
          furthest_idx ∧
      scan_clear path obstacles tile_size current_idx fuel test_idx furthest_idx ≤
        max furthest_idx (path.length - 1) := by
  intro fuel
  induction fuel with
  | zero =>
    intro test_idx furthest_idx hle
    rw [scan_clear]
    exact ⟨le_refl _, le_max_left _ _⟩
  | succ fuel ih =>
    intro test_idx furthest_idx hle
    rw [scan_clear]
    split_ifs with h1 h2
    · have hrec := ih (test_idx + 1) test_idx (by omega)
      refine ⟨le_trans hle hrec.1, le_trans hrec.2 ?_⟩
      have hmax : max test_idx (path.length - 1) = path.length - 1 := by omega
      rw [hmax]
      exact le_max_right _ _
    · exact ⟨le_refl _, le_max_left _ _⟩
    · exact ⟨le_refl _, le_max_left _ _⟩

/-- The outer `while current_idx < len(path) - 1` loop of `simplify_path`:
the waypoints appended after the initial `path[0]`.  Embedded with structural
`fuel` recursion; any `fuel ≥ path.length - current_idx` yields the loop's
behavior, because each iteration advances `current_idx` by at least one. -/
def simplify_loop (path : List (ℚ × ℚ)) (obstacles : List (Obstacle ℚ)) (tile_size : ℤ) :
    ℕ → ℕ → List (ℚ × ℚ)
  | 0, _ => []
  | fuel + 1, current_idx =>
    if current_idx < path.length - 1 then
      let furthest := scan_clear path obstacles tile_size current_idx path.length
        (current_idx + 2) (current_idx + 1)
      path.getD furthest (0, 0) :: simplify_loop path obstacles tile_size fuel furthest
    else []

/-- `simplify_path` (`pathfinding.py` lines 267-291). -/
def simplify_path (path : List (ℚ × ℚ)) (obstacles : List (Obstacle ℚ))
    (tile_size : ℤ) : List (ℚ × ℚ) :=
  if path.length ≤ 2 then path
  else path.getD 0 (0, 0) :: simplify_loop path obstacles tile_size path.length 0

/-! ### pathfinding.py — A* search -/

/-- `Node` (`pathfinding.py` lines 10-27): grid position, `g`/`h`/`f` costs,
and a parent pointer for path reconstruction. -/
inductive ANode where
  | mk (x y : ℤ) (g h f : ℚ) (parent : Option ANode)

/-- Grid x of a node. -/
def ANode.x : ANode → ℤ
  | .mk x _ _ _ _ _ => x

/-- Grid y of a node. -/
def ANode.y : ANode → ℤ
  | .mk _ y _ _ _ _ => y

/-- Cost from start. -/
def ANode.g : ANode → ℚ
  | .mk _ _ g _ _ _ => g

/-- Heuristic to goal. -/
def ANode.h : ANode → ℚ
  | .mk _ _ _ h _ _ => h

/-- Total cost, set to `g + h` by the constructor. -/
def ANode.f : ANode → ℚ
  | .mk _ _ _ _ f _ => f

/-- Parent pointer. -/
def ANode.parent : ANode → Option ANode
  | .mk _ _ _ _ _ p => p

/-- `Node.__init__`: stores `f = g + h`. -/
def ANode.node (x y : ℤ) (g h : ℚ) (parent : Option ANode) : ANode :=
  .mk x y g h (g + h) parent

/-- `Node.__lt__`: compare by total cost `f`. -/
def ANode.lt (a b : ANode) : Bool := decide (a.f < b.f)

/-- Modelled from Python's `heapq` semantics (external library): `heappop`
removes and returns a minimal element of the heap with respect to
`Node.__lt__`; here the leftmost minimal-`f` element of the list. -/
def heap_pop : List ANode → Option (ANode × List ANode)
  | [] => none
  | a :: rest =>
    match heap_pop rest with
    | none => some (a, [])
    | some (m, rest') => if m.lt a then some (m, a :: rest') else some (a, rest)

/-- Modelled from Python's `heapq` semantics (external library): `heappush`
adds an element to the heap; the multiset of elements is what matters for
`heap_pop`, so pushing appends. -/
def heap_push (heap : List ANode) (n : ANode) : List ANode := heap ++ [n]

/-- First-match lookup in the `g_scores` dict. -/
def assoc_get : List ((ℤ × ℤ) × ℚ) → (ℤ × ℤ) → Option ℚ
  | [], _ => none
  | e :: es, k => if e.1 = k then some e.2 else assoc_get es k

/-- Dict update `g_scores[(nx, ny)] = tentative_g`, modelled by prepending
(first-match lookup sees the newest binding). -/
def assoc_put (l : List ((ℤ × ℤ) × ℚ)) (k : ℤ × ℤ) (v : ℚ) : List ((ℤ × ℤ) × ℚ) :=
  (k, v) :: l

/-- Python truthiness of `if max_distance and tentative_g > max_distance`:
`None` and `0.0` are falsy. -/
def max_distance_exceeded (max_distance : Option ℚ) (tentative_g : ℚ) : Bool :=
  match max_distance with
  | none => false
  | some m => !(decide (m = 0)) && decide (m < tentative_g)

/-- `(nx, ny) not in g_scores or tentative_g < g_scores[(nx, ny)]`. -/
def better_g (g_scores : List ((ℤ × ℤ) × ℚ)) (k : ℤ × ℤ) (tentative_g : ℚ) : Bool :=
  match assoc_get g_scores k with
  | none => true
  | some g0 => decide (tentative_g < g0)

/-- The `while node is not None` reconstruction loop: node positions in world
coordinates from the goal back to the start (the caller reverses). -/
def ANode.chain (tile_size : ℤ) : ANode → List (ℚ × ℚ)
  | .mk x y _ _ _ none => [grid_to_world x y tile_size]
  | .mk x y _ _ _ (some p) => grid_to_world x y tile_size :: p.chain tile_size

/-- The neighbor `for` loop body of `find_path` for one popped node `current`:
threads the open set and `g_scores` through the neighbor list. -/
def process_neighbors (goal : ℤ × ℤ) (obstacles : List (Obstacle ℚ)) (tile_size : ℤ)
    (player_radius : ℚ) (max_distance : Option ℚ) (current : ANode)
    (closed_set : List (ℤ × ℤ)) :
    List (ℤ × ℤ × ℚ) → List ANode → List ((ℤ × ℤ) × ℚ) →
      List ANode × List ((ℤ × ℤ) × ℚ)
  | [], open_set, g_scores => (open_set, g_scores)
  | (nx, ny, move_cost) :: rest, open_set, g_scores =>
    if (nx, ny) ∈ closed_set then
      process_neighbors goal obstacles tile_size player_radius max_distance current
        closed_set rest open_set g_scores
    else if ¬ is_walkable_grid nx ny obstacles tile_size player_radius then
      process_neighbors goal obstacles tile_size player_radius max_distance current
        closed_set rest open_set g_scores
    else
      let tentative_g := current.g + move_cost
      if max_distance_exceeded max_distance tentative_g then
        process_neighbors goal obstacles tile_size player_radius max_distance current
          closed_set rest open_set g_scores
      else if better_g g_scores (nx, ny) tentative_g then
        process_neighbors goal obstacles tile_size player_radius max_distance current
          closed_set rest
          (heap_push open_set
            (ANode.node nx ny tentative_g (heuristic nx ny goal.1 goal.2) (some current)))
          (assoc_put g_scores (nx, ny) tentative_g)
      else
        process_neighbors goal obstacles tile_size player_radius max_distance current
          closed_set rest open_set g_scores

/-- Result of the A* `while open_set` loop. -/
inductive SearchResult where
  | out
  | noPath
  | found (path : List (ℚ × ℚ))
  deriving DecidableEq, Repr

/-- The A* `while open_set` loop of `find_path`.  `fuel` bounds the number of
iterations (the Python loop always terminates, because a cell is only
re-pushed with a strictly smaller `g` drawn from the well-founded set of
sums of 1.0 and 1.4 steps); `SearchResult.out` marks exhausted fuel, which
has no Python counterpart. -/
def astar_loop (goal : ℤ × ℤ) (obstacles : List (Obstacle ℚ)) (tile_size : ℤ)
    (grid_width grid_height : ℤ) (player_radius : ℚ) (max_distance : Option ℚ) :
    ℕ → List ANode → List (ℤ × ℤ) → List ((ℤ × ℤ) × ℚ) → SearchResult
  | 0, _, _, _ => .out
  | fuel + 1, open_set, closed_set, g_scores =>
    match heap_pop open_set with
    | none => .noPath
    | some (current, rest) =>
      if current.x = goal.1 ∧ current.y = goal.2 then
        .found (simplify_path (current.chain tile_size).reverse obstacles tile_size)
      else
        let closed_set' := (current.x, current.y) :: closed_set
        let nbrs := get_neighbors current.x current.y grid_width grid_height
          (some obstacles) (some tile_size) (some player_radius)
        let step := process_neighbors goal obstacles tile_size player_radius max_distance
          current closed_set' nbrs rest g_scores
        astar_loop goal obstacles tile_size grid_width grid_height player_radius
          max_distance fuel step.1 closed_set' step.2

/-- `range(lo, hi)` over integers. -/
def int_range (lo hi : ℤ) : List ℤ :=
  (List.range (hi - lo).toNat).map fun i => lo + (i : ℤ)

/-- `find_nearest_walkable` (`pathfinding.py` lines 252-264): scan expanding
square rings of radius 1..max_radius, perimeter cells only, returning the
first in-bounds walkable cell in iteration order. -/
def find_nearest_walkable (x y : ℤ) (obstacles : List (Obstacle ℚ)) (tile_size : ℤ)
    (grid_width grid_height : ℤ) (player_radius : ℚ) (max_radius : ℤ) :
    Option (ℤ × ℤ) :=
  (int_range 1 (max_radius + 1)).findSome? fun radius =>
    (int_range (-radius) (radius + 1)).findSome? fun dx =>
      (int_range (-radius) (radius + 1)).findSome? fun dy =>
        if |dx| = radius ∨ |dy| = radius then
          let nx := x + dx
          let ny := y + dy
          if in_bounds grid_width grid_height nx ny then
            if is_walkable_grid nx ny obstacles tile_size player_radius then
              some (nx, ny)
            else none
          else none
        else none

/-- `find_path` (`pathfinding.py` lines 156-249).  Returns `none` for an
unwalkable start cell, for a goal cell that cannot be snapped to a walkable
ring cell, for an exhausted open set — or for exhausted `fuel`, the
embedding's termination budget, which has no Python counterpart. -/
def find_path (start_x start_y goal_x goal_y : ℚ) (obstacles : List (Obstacle ℚ))
    (tile_size : ℤ) (grid_width grid_height : ℤ) (player_radius : ℚ)
    (max_distance : Option ℚ) (fuel : ℕ) : Option (List (ℚ × ℚ)) :=
  let start_grid := world_to_grid start_x start_y tile_size
  let goal_grid0 := world_to_grid goal_x goal_y tile_size
  if ¬ is_walkable_grid start_grid.1 start_grid.2 obstacles tile_size player_radius then
    none
  else
    let goal_opt :=
      if ¬ is_walkable_grid goal_grid0.1 goal_grid0.2 obstacles tile_size player_radius then
        find_nearest_walkable goal_grid0.1 goal_grid0.2 obstacles tile_size grid_width
          grid_height player_radius 5
      else some goal_grid0
    match goal_opt with
    | none => none
    | some goal_grid =>
      let start_node := ANode.node start_grid.1 start_grid.2 0
        (heuristic start_grid.1 start_grid.2 goal_grid.1 goal_grid.2) none
      match astar_loop goal_grid obstacles tile_size grid_width grid_height player_radius
          max_distance fuel [start_node] [] [((start_grid.1, start_grid.2), 0)] with
      | .out => none
      | .noPath => none
      | .found p => some p

/-- C8: converting a cell to its world-space center and back recovers the same
cell, for nonnegative grid coordinates and positive tile size. -/
theorem C8_grid_world_round_trip (gx gy tile_size : ℤ) (hx : 0 ≤ gx) (hy : 0 ≤ gy)
    (ht : 0 < tile_size) :
    world_to_grid (grid_to_world gx gy tile_size).1 (grid_to_world gx gy tile_size).2
      tile_size = (gx, gy) := by
  have ht' : ((tile_size : ℚ)) ≠ 0 := by
    exact_mod_cast ht.ne'
  have key : ∀ z : ℤ, 0 ≤ z →
      py_int (((z : ℚ) * (tile_size : ℚ) + (tile_size : ℚ) / 2) / (tile_size : ℚ)) = z := by
    intro z hz
    have hq : ((z : ℚ) * (tile_size : ℚ) + (tile_size : ℚ) / 2) / (tile_size : ℚ) =
        (z : ℚ) + 1 / 2 := by
      field_simp
      ring
    rw [hq]
    have hnn : ¬ ((z : ℚ) + 1 / 2 < 0) := by
      push_neg
      have : (0 : ℚ) ≤ (z : ℚ) := by exact_mod_cast hz
      linarith
    rw [py_int, if_neg hnn]
    rw [Int.floor_int_add]
    norm_num
  unfold grid_to_world world_to_grid
  simp only
  rw [key gx hx, key gy hy]

/-- Witness for C8 at cell (3, 5) with tile size 64. -/
theorem C8_grid_world_round_trip_witness :
    (0 : ℤ) ≤ 3 ∧ (0 : ℤ) ≤ 5 ∧ (0 : ℤ) < 64 ∧
      world_to_grid (grid_to_world 3 5 64).1 (grid_to_world 3 5 64).2 64 = (3, 5) :=
  ⟨by norm_num, by norm_num, by norm_num,
    C8_grid_world_round_trip 3 5 64 (by norm_num) (by norm_num) (by norm_num)⟩
/-- C10: `is_walkable_grid` declares a cell unwalkable iff at least one of its
nine sample points (cell center plus eight perimeter points at radius
`player_radius + 4`, diagonals scaled by 0.707) lies inside or exactly on the
boundary of some obstacle rectangle — containment is closed on all four edges. -/
theorem C10_walkability_boundary (grid_x grid_y : ℤ) (obstacles : List (Obstacle ℚ))
    (tile_size : ℤ) (player_radius : ℚ) :
    is_walkable_grid grid_x grid_y obstacles tile_size player_radius = false ↔
      ∃ p ∈ check_points (grid_to_world grid_x grid_y tile_size).1
          (grid_to_world grid_x grid_y tile_size).2 (player_radius + 4),
        ∃ o ∈ obstacles,
          o.left ≤ p.1 ∧ p.1 ≤ o.right ∧ o.bottom ≤ p.2 ∧ p.2 ≤ o.top := by
  rw [← Bool.not_eq_true, is_walkable_grid]
  simp only [List.all_eq_true, Bool.not_eq_true', Bool.not_eq_false, point_in_obstacle,
    decide_eq_true_eq]
  push_neg
  simp only [Bool.not_eq_false, decide_eq_true_eq]
/-- C3 (amended): in a `find_path` search (obstacles, tile size and agent radius
all supplied), a diagonal move from (x,y) to (x+dx,y+dy) is admitted as a
neighbor only if both adjacent cardinal cells (x+dx,y) and (x,y+dy) are
walkable.  (The simplified path returned by `find_path` may nevertheless
contain a diagonal step across a blocked corner; see the counterexample.) -/
theorem C3_diagonal_admission (x y grid_width grid_height : ℤ)
    (obstacles : List (Obstacle ℚ)) (tile_size : ℤ) (player_radius : ℚ)
    (dx dy : ℤ) (c : ℚ) (hdx : dx = 1 ∨ dx = -1) (hdy : dy = 1 ∨ dy = -1)
    (hmem : (x + dx, y + dy, c) ∈ get_neighbors x y grid_width grid_height
      (some obstacles) (some tile_size) (some player_radius)) :
    is_walkable_grid (x + dx) y obstacles tile_size player_radius = true ∧
      is_walkable_grid x (y + dy) obstacles tile_size player_radius = true := by
  simp only [get_neighbors, List.mem_append, List.mem_map, List.mem_filter,
    List.mem_cons, List.not_mem_nil, or_false, Bool.and_eq_true, List.all_eq_true,
    decide_eq_true_eq, Prod.mk.injEq] at hmem
  rcases hmem with ⟨a, ⟨ha, -⟩, hx1, hy1, -⟩ | ⟨a, ⟨ha, -, hall⟩, hx1, hy1, -⟩
  · exfalso
    rcases hdx with rfl | rfl <;> rcases hdy with rfl | rfl <;>
      rcases ha with rfl | rfl | rfl | rfl <;> simp at hx1 hy1
  · rcases ha with rfl | rfl | rfl | rfl
    · have h1 : is_walkable_grid (x + 1) y obstacles tile_size player_radius = true := by
        simpa using (hall (1, 0) (by simp)).2
      have h2 : is_walkable_grid x (y + 1) obstacles tile_size player_radius = true := by
        simpa using (hall (0, 1) (by simp)).2
      have e1 : dx = 1 := by simpa using hx1.symm
      have e2 : dy = 1 := by simpa using hy1.symm
      subst e1; subst e2
      exact ⟨h1, h2⟩
    · have h1 : is_walkable_grid (x + 1) y obstacles tile_size player_radius = true := by
        simpa using (hall (1, 0) (by simp)).2
      have h2 : is_walkable_grid x (y + -1) obstacles tile_size player_radius = true := by
        simpa using (hall (0, -1) (by simp)).2
      have e1 : dx = 1 := by simpa using hx1.symm
      have e2 : dy = -1 := by simpa using hy1.symm
      subst e1; subst e2
      exact ⟨h1, h2⟩
    · have h1 : is_walkable_grid (x + -1) y obstacles tile_size player_radius = true := by
        simpa using (hall (-1, 0) (by simp)).2
      have h2 : is_walkable_grid x (y + 1) obstacles tile_size player_radius = true := by
        simpa using (hall (0, 1) (by simp)).2
      have e1 : dx = -1 := by simpa using hx1.symm
      have e2 : dy = 1 := by simpa using hy1.symm
      subst e1; subst e2
      exact ⟨h1, h2⟩
    · have h1 : is_walkable_grid (x + -1) y obstacles tile_size player_radius = true := by
        simpa using (hall (-1, 0) (by simp)).2
      have h2 : is_walkable_grid x (y + -1) obstacles tile_size player_radius = true := by
        simpa using (hall (0, -1) (by simp)).2
      have e1 : dx = -1 := by simpa using hx1.symm
      have e2 : dy = -1 := by simpa using hy1.symm
      subst e1; subst e2
      exact ⟨h1, h2⟩

/-- Witness for C3's amended theorem: on an open 3×3 grid the diagonal move
from (0,0) to (1,1) is a neighbor, and both adjacent cardinal cells are
walkable. -/
theorem C3_diagonal_admission_witness :
    ((1 : ℤ) = 1 ∨ (1 : ℤ) = -1) ∧
    ((0 : ℤ) + 1, (0 : ℤ) + 1, (1.4 : ℚ)) ∈ get_neighbors 0 0 3 3 (some []) (some 64)
      (some 10) ∧
    is_walkable_grid (0 + 1) 0 [] 64 10 = true ∧
    is_walkable_grid 0 (0 + 1) [] 64 10 = true :=
  ⟨Or.inl rfl, by decide,
    C3_diagonal_admission 0 0 3 3 [] 64 10 1 1 1.4 (Or.inl rfl) (Or.inl rfl) (by decide)⟩

set_option maxRecDepth 100000 in
/-- C3 (counterexample to the claim as stated): on a 2×2 grid with tile size 64
and agent radius 10, a 2×2 obstacle centered at (82, 32) blocks exactly cell
(1,0).  `find_path` from (32,32) to (96,96) returns the simplified path
[(32,32), (96,96)]: a diagonal step from cell (0,0) to cell (1,1) even though
the shared cardinal cell (1,0) is unwalkable — the line-of-sight
simplification reintroduces a corner-cutting diagonal into the returned
path. -/
theorem C3_counterexample :
    is_walkable_grid 1 0 [⟨82, 32, 2, 2⟩] 64 10 = false ∧
    is_walkable_grid 0 0 [⟨82, 32, 2, 2⟩] 64 10 = true ∧
    is_walkable_grid 1 1 [⟨82, 32, 2, 2⟩] 64 10 = true ∧
    world_to_grid 32 32 64 = (0, 0) ∧
    world_to_grid 96 96 64 = (1, 1) ∧
    grid_to_world 0 0 64 = (32, 32) ∧
    grid_to_world 1 1 64 = (96, 96) ∧
    find_path 32 32 96 96 [⟨82, 32, 2, 2⟩] 64 2 2 10 none 10 =
      some [(32, 32), (96, 96)] := by
  decide
theorem simplify_loop_nil (path : List (ℚ × ℚ)) (obstacles : List (Obstacle ℚ))
    (tile_size : ℤ) (fuel current : ℕ) (h : ¬ current < path.length - 1) :
    simplify_loop path obstacles tile_size fuel current = [] := by
  cases fuel with
  | zero => rw [simplify_loop]
  | succ fuel => rw [simplify_loop, if_neg h]

theorem simplify_loop_last (path : List (ℚ × ℚ)) (obstacles : List (Obstacle ℚ))
    (tile_size : ℤ) :
    ∀ fuel current, path.length - current ≤ fuel → current < path.length - 1 →
      (simplify_loop path obstacles tile_size fuel current).getLast? =
        some (path.getD (path.length - 1) (0, 0)) := by
  intro fuel
  induction fuel with
  | zero =>
    intro current hfu hcur
    omega
  | succ fuel ih =>
    intro current hfu hcur
    rw [simplify_loop, if_pos hcur]
    dsimp only
    have hb := scan_clear_ge path obstacles tile_size current path.length
      (current + 2) (current + 1) (by omega)
    set furthest := scan_clear path obstacles tile_size current path.length
      (current + 2) (current + 1) with hfdef
    have hflb : current + 1 ≤ furthest := hb.1
    have hfub : furthest ≤ path.length - 1 := by
      have := hb.2
      omega
    by_cases hf : furthest < path.length - 1
    · have hrec := ih furthest (by omega) hf
      cases hl : simplify_loop path obstacles tile_size fuel furthest with
      | nil =>
        rw [hl] at hrec
        simp at hrec
      | cons b l' =>
        rw [hl] at hrec
        rw [List.getLast?_cons_cons]
        exact hrec
    · have hfe : furthest = path.length - 1 := by omega
      rw [simplify_loop_nil path obstacles tile_size fuel furthest (by omega)]
      rw [hfe]
      rfl

theorem getLast?_eq_getD (l : List (ℚ × ℚ)) (h : l ≠ []) :
    l.getLast? = some (l.getD (l.length - 1) (0, 0)) := by
  have hlt : l.length - 1 < l.length := by
    cases l with
    | nil => exact absurd rfl h
    | cons a t => simp
  rw [List.getLast?_eq_getElem?, List.getD_eq_getElem?_getD]
  rw [List.getElem?_eq_getElem hlt]
  rfl

/-- C9: `simplify_path` preserves endpoints: for every non-empty input path the
result's first element is the input's first and its last is the input's last,
and every path of length at most 2 is returned unchanged. -/
theorem C9_simplify_preserves_endpoints (path : List (ℚ × ℚ))
    (obstacles : List (Obstacle ℚ)) (tile_size : ℤ) (hne : path ≠ []) :
    (simplify_path path obstacles tile_size).head? = path.head? ∧
    (simplify_path path obstacles tile_size).getLast? = path.getLast? ∧
    (path.length ≤ 2 → simplify_path path obstacles tile_size = path) := by
  unfold simplify_path
  by_cases hlen : path.length ≤ 2
  · rw [if_pos hlen]
    exact ⟨rfl, rfl, fun _ => rfl⟩
  · rw [if_neg hlen]
    push_neg at hlen
    refine ⟨?_, ?_, fun h => absurd h (by omega)⟩
    · cases path with
      | nil => exact absurd rfl hne
      | cons a t => simp
    · have h0 : (0 : ℕ) < path.length - 1 := by omega
      have hloop := simplify_loop_last path obstacles tile_size path.length 0 (by omega) h0
      cases hl : simplify_loop path obstacles tile_size path.length 0 with
      | nil =>
        rw [hl] at hloop
        simp at hloop
      | cons b l' =>
        rw [hl] at hloop
        rw [List.getLast?_cons_cons, hloop, getLast?_eq_getD path hne]

/-- Witness for C9 on a concrete three-point path. -/
theorem C9_simplify_preserves_endpoints_witness :
    ([((0 : ℚ), (0 : ℚ)), (5, 5), (10, 10)] ≠ ([] : List (ℚ × ℚ))) ∧
    (simplify_path [((0 : ℚ), (0 : ℚ)), (5, 5), (10, 10)] [] 64).head? =
      ([((0 : ℚ), (0 : ℚ)), (5, 5), (10, 10)]).head? ∧
    (simplify_path [((0 : ℚ), (0 : ℚ)), (5, 5), (10, 10)] [] 64).getLast? =
      ([((0 : ℚ), (0 : ℚ)), (5, 5), (10, 10)]).getLast? := by
  have h := C9_simplify_preserves_endpoints [((0 : ℚ), (0 : ℚ)), (5, 5), (10, 10)] [] 64
    (by decide)
  exact ⟨by decide, h.1, h.2.1⟩
theorem heap_pop_min : ∀ (l : List ANode) (m : ANode) (rest : List ANode),
    heap_pop l = some (m, rest) → m ∈ l ∧ ∀ n ∈ l, m.f ≤ n.f := by
  intro l
  induction l with
  | nil => intro m rest h; simp [heap_pop] at h
  | cons a t ih =>
    intro m rest h
    rw [heap_pop] at h
    rcases ht : heap_pop t with - | ⟨m', rest'⟩
    · rw [ht] at h
      dsimp only at h
      simp only [Option.some.injEq, Prod.mk.injEq] at h
      obtain ⟨rfl, rfl⟩ := h
      refine ⟨List.mem_cons_self _ _, ?_⟩
      intro n hn
      rcases List.mem_cons.1 hn with rfl | hn'
      · exact le_refl _
      · exfalso
        cases t with
        | nil => simp at hn'
        | cons b t' =>
          rw [heap_pop] at ht
          rcases h' : heap_pop t' with - | ⟨q, r⟩ <;> rw [h'] at ht <;>
            dsimp only at ht
          · exact Option.noConfusion ht
          · split_ifs at ht
    · rw [ht] at h
      dsimp only at h
      have ihm := ih m' rest' ht
      by_cases hlt : m'.lt a = true
      · rw [if_pos hlt] at h
        simp only [ANode.lt, decide_eq_true_eq] at hlt
        simp only [Option.some.injEq, Prod.mk.injEq] at h
        obtain ⟨rfl, rfl⟩ := h
        refine ⟨List.mem_cons_of_mem _ ihm.1, ?_⟩
        intro n hn
        rcases List.mem_cons.1 hn with rfl | hn'
        · exact hlt.le
        · exact ihm.2 n hn'
      · rw [if_neg hlt] at h
        simp only [ANode.lt, decide_eq_true_eq, not_lt] at hlt
        simp only [Option.some.injEq, Prod.mk.injEq] at h
        obtain ⟨rfl, rfl⟩ := h
        refine ⟨List.mem_cons_self _ _, ?_⟩
        intro n hn
        rcases List.mem_cons.1 hn with rfl | hn'
        · exact le_refl _
        · exact le_trans hlt (ihm.2 n hn')

theorem process_neighbors_revisit (goal : ℤ × ℤ) (obstacles : List (Obstacle ℚ))
    (tile_size : ℤ) (player_radius : ℚ) (max_distance : Option ℚ) (current : ANode)
    (closed_set : List (ℤ × ℤ)) (nx ny : ℤ) (move_cost : ℚ) (rest : List (ℤ × ℤ × ℚ))
    (open_set : List ANode) (g_scores : List ((ℤ × ℤ) × ℚ))
    (h1 : (nx, ny) ∉ closed_set)
    (h2 : is_walkable_grid nx ny obstacles tile_size player_radius = true)
    (h3 : max_distance_exceeded max_distance (current.g + move_cost) = false)
    (h4 : better_g g_scores (nx, ny) (current.g + move_cost) = true) :
    process_neighbors goal obstacles tile_size player_radius max_distance current
        closed_set ((nx, ny, move_cost) :: rest) open_set g_scores =
      process_neighbors goal obstacles tile_size player_radius max_distance current
        closed_set rest
        (heap_push open_set (ANode.node nx ny (current.g + move_cost)
          (heuristic nx ny goal.1 goal.2) (some current)))
        (assoc_put g_scores (nx, ny) (current.g + move_cost)) := by
  rw [process_neighbors]
  rw [if_neg h1, if_neg (by simp [h2])]
  dsimp only
  rw [if_neg (by simp [h3]), if_pos h4]

/-- C4: the A* open set behaves as a min-priority queue ordered by total cost
`f`: a popped node has minimal `f` among the open set (`heap_pop` models
Python's `heapq` pop); every constructed node stores `f = g + h`
(`Node.__init__`); and whenever a strictly better `g` for a neighbor cell is
found (`better_g`: not scored yet, or strictly cheaper), the cell is re-pushed
into the open set with that cheaper cost and its `g_score` is updated. -/
theorem C4_priority_queue_and_revisit :
    (∀ (l : List ANode) (m : ANode) (rest : List ANode),
        heap_pop l = some (m, rest) → m ∈ l ∧ ∀ n ∈ l, m.f ≤ n.f) ∧
    (∀ (x y : ℤ) (g h : ℚ) (p : Option ANode), (ANode.node x y g h p).f = g + h) ∧
    (∀ (g_scores : List ((ℤ × ℤ) × ℚ)) (k : ℤ × ℤ) (tg : ℚ),
        better_g g_scores k tg = true ↔
          (assoc_get g_scores k = none ∨ ∃ g0, assoc_get g_scores k = some g0 ∧ tg < g0)) ∧
    (∀ (goal : ℤ × ℤ) (obstacles : List (Obstacle ℚ)) (tile_size : ℤ)
        (player_radius : ℚ) (max_distance : Option ℚ) (current : ANode)
        (closed_set : List (ℤ × ℤ)) (nx ny : ℤ) (move_cost : ℚ)
        (rest : List (ℤ × ℤ × ℚ)) (open_set : List ANode)
        (g_scores : List ((ℤ × ℤ) × ℚ)),
        (nx, ny) ∉ closed_set →
        is_walkable_grid nx ny obstacles tile_size player_radius = true →
        max_distance_exceeded max_distance (current.g + move_cost) = false →
        better_g g_scores (nx, ny) (current.g + move_cost) = true →
        process_neighbors goal obstacles tile_size player_radius max_distance current
            closed_set ((nx, ny, move_cost) :: rest) open_set g_scores =
          process_neighbors goal obstacles tile_size player_radius max_distance current
            closed_set rest
            (heap_push open_set (ANode.node nx ny (current.g + move_cost)
              (heuristic nx ny goal.1 goal.2) (some current)))
            (assoc_put g_scores (nx, ny) (current.g + move_cost))) := by
  refine ⟨heap_pop_min, fun _ _ _ _ _ => rfl, ?_, process_neighbors_revisit⟩
  intro g_scores k tg
  unfold better_g
  rcases h : assoc_get g_scores k with - | g0 <;> simp

/-- Witness for C4 at concrete inputs: popping from a two-node heap returns the
smaller-`f` node; a constructed node has `f = g + h`; a strictly better `g`
re-pushes the neighbor. -/
theorem C4_priority_queue_and_revisit_witness :
    (heap_pop [ANode.node 0 0 2 3 none, ANode.node 1 1 1 2 none] =
        some (ANode.node 1 1 1 2 none, [ANode.node 0 0 2 3 none])) ∧
    ((ANode.node 1 1 1 2 none) ∈ [ANode.node 0 0 2 3 none, ANode.node 1 1 1 2 none] ∧
      ∀ n ∈ [ANode.node 0 0 2 3 none, ANode.node 1 1 1 2 none],
        (ANode.node 1 1 1 2 none).f ≤ n.f) ∧
    (ANode.node 1 2 3 4 none).f = 3 + 4 ∧
    (process_neighbors (0, 0) [] 64 10 none (ANode.node 0 0 0 0 none) [(0, 0)]
        [((0 : ℤ), (1 : ℤ), (1 : ℚ))] [] [] =
      process_neighbors (0, 0) [] 64 10 none (ANode.node 0 0 0 0 none) [(0, 0)] []
        (heap_push [] (ANode.node 0 1 ((ANode.node 0 0 0 0 none).g + 1)
          (heuristic 0 1 0 0) (some (ANode.node 0 0 0 0 none))))
        (assoc_put [] (0, 1) ((ANode.node 0 0 0 0 none).g + 1))) := by
  refine ⟨rfl, ?_, C4_priority_queue_and_revisit.2.1 1 2 3 4 none, ?_⟩
  · exact C4_priority_queue_and_revisit.1 [ANode.node 0 0 2 3 none, ANode.node 1 1 1 2 none]
      (ANode.node 1 1 1 2 none) [ANode.node 0 0 2 3 none] rfl
  · exact C4_priority_queue_and_revisit.2.2.2 (0, 0) [] 64 10 none (ANode.node 0 0 0 0 none)
      [(0, 0)] 0 1 1 [] [] [] (by decide) (by decide) rfl rfl
/-- C5: `find_path` reports failure only as `none`, exactly when the start cell
is unwalkable, or the goal cell is unwalkable and no walkable cell exists on
the expanding rings of radius 1..5 around it, or the A* open set is exhausted
without reaching the (possibly snapped) goal; when the goal cell is unwalkable
but a ring cell is found, the search runs against that cell instead of
failing.  (`fuel` is the embedding's termination budget for the A* loop; the
hypothesis rules out the fuel-exhaustion artifact, which does not occur in the
Python code.)  In the embedding `find_path` is a total function into
`Option`, so no failure is an exception. -/
theorem C5_failure_taxonomy (start_x start_y goal_x goal_y : ℚ)
    (obstacles : List (Obstacle ℚ)) (tile_size grid_width grid_height : ℤ)
    (player_radius : ℚ) (max_distance : Option ℚ) (fuel : ℕ)
    (sg gg0 : ℤ × ℤ) (snap : Option (ℤ × ℤ))
    (hsg : sg = world_to_grid start_x start_y tile_size)
    (hgg0 : gg0 = world_to_grid goal_x goal_y tile_size)
    (hsnap : snap =
      if ¬ is_walkable_grid gg0.1 gg0.2 obstacles tile_size player_radius then
        find_nearest_walkable gg0.1 gg0.2 obstacles tile_size grid_width grid_height
          player_radius 5
      else some gg0)
    (hfuel : ∀ gg, snap = some gg →
      astar_loop gg obstacles tile_size grid_width grid_height player_radius max_distance
          fuel [ANode.node sg.1 sg.2 0 (heuristic sg.1 sg.2 gg.1 gg.2) none] []
          [((sg.1, sg.2), 0)] ≠ .out) :
    (find_path start_x start_y goal_x goal_y obstacles tile_size grid_width grid_height
        player_radius max_distance fuel = none ↔
      is_walkable_grid sg.1 sg.2 obstacles tile_size player_radius = false ∨
      (is_walkable_grid gg0.1 gg0.2 obstacles tile_size player_radius = false ∧
        find_nearest_walkable gg0.1 gg0.2 obstacles tile_size grid_width grid_height
          player_radius 5 = none) ∨
      (∃ gg, snap = some gg ∧
        astar_loop gg obstacles tile_size grid_width grid_height player_radius max_distance
          fuel [ANode.node sg.1 sg.2 0 (heuristic sg.1 sg.2 gg.1 gg.2) none] []
          [((sg.1, sg.2), 0)] = .noPath)) ∧
    (is_walkable_grid sg.1 sg.2 obstacles tile_size player_radius = true →
      ∀ gg, snap = some gg →
        find_path start_x start_y goal_x goal_y obstacles tile_size grid_width grid_height
            player_radius max_distance fuel =
          match astar_loop gg obstacles tile_size grid_width grid_height player_radius
              max_distance fuel
              [ANode.node sg.1 sg.2 0 (heuristic sg.1 sg.2 gg.1 gg.2) none] []
              [((sg.1, sg.2), 0)] with
          | .out => none
          | .noPath => none
          | .found p => some p) := by
  subst hsg
  subst hgg0
  subst hsnap
  rcases Bool.eq_false_or_eq_true (is_walkable_grid
      (world_to_grid start_x start_y tile_size).1
      (world_to_grid start_x start_y tile_size).2 obstacles tile_size player_radius)
    with hs | hs
  · rcases Bool.eq_false_or_eq_true (is_walkable_grid
        (world_to_grid goal_x goal_y tile_size).1
        (world_to_grid goal_x goal_y tile_size).2 obstacles tile_size player_radius)
      with hg | hg
    · have hsnapv :
          (if ¬ is_walkable_grid (world_to_grid goal_x goal_y tile_size).1
                (world_to_grid goal_x goal_y tile_size).2 obstacles tile_size player_radius
            then find_nearest_walkable (world_to_grid goal_x goal_y tile_size).1
              (world_to_grid goal_x goal_y tile_size).2 obstacles tile_size grid_width
              grid_height player_radius 5
            else some (world_to_grid goal_x goal_y tile_size)) =
            some (world_to_grid goal_x goal_y tile_size) := by
        simp [hg]
      rw [hsnapv] at hfuel ⊢
      have hout := hfuel _ rfl
      cases hloop : astar_loop (world_to_grid goal_x goal_y tile_size) obstacles tile_size
          grid_width grid_height player_radius max_distance fuel
          [ANode.node (world_to_grid start_x start_y tile_size).1
            (world_to_grid start_x start_y tile_size).2 0
            (heuristic (world_to_grid start_x start_y tile_size).1
              (world_to_grid start_x start_y tile_size).2
              (world_to_grid goal_x goal_y tile_size).1
              (world_to_grid goal_x goal_y tile_size).2) none] []
          [(((world_to_grid start_x start_y tile_size).1,
             (world_to_grid start_x start_y tile_size).2), 0)] with
      | out => exact absurd hloop hout
      | noPath =>
        have hfp : find_path start_x start_y goal_x goal_y obstacles tile_size grid_width
            grid_height player_radius max_distance fuel = none := by
          simp [find_path, hs, hg, hloop]
        refine ⟨⟨fun _ => Or.inr (Or.inr ⟨_, rfl, hloop⟩), fun _ => hfp⟩, ?_⟩
        rintro - gg hgg
        obtain rfl : world_to_grid goal_x goal_y tile_size = gg := by
          simpa using hgg
        rw [hfp, hloop]
      | found p =>
        have hfp : find_path start_x start_y goal_x goal_y obstacles tile_size grid_width
            grid_height player_radius max_distance fuel = some p := by
          simp [find_path, hs, hg, hloop]
        refine ⟨⟨fun h => ?_, fun h => ?_⟩, ?_⟩
        · rw [hfp] at h
          exact absurd h (by simp)
        · rcases h with h | ⟨h, -⟩ | ⟨gg, hgg, hl⟩
          · rw [hs] at h
            exact absurd h (by simp)
          · rw [hg] at h
            exact absurd h (by simp)
          · obtain rfl : world_to_grid goal_x goal_y tile_size = gg := by
              simpa using hgg
            rw [hloop] at hl
            exact absurd hl (by simp)
        · rintro - gg hgg
          obtain rfl : world_to_grid goal_x goal_y tile_size = gg := by
            simpa using hgg
          rw [hfp, hloop]
    · rcases Option.eq_none_or_eq_some (find_nearest_walkable
          (world_to_grid goal_x goal_y tile_size).1
          (world_to_grid goal_x goal_y tile_size).2 obstacles tile_size grid_width
          grid_height player_radius 5) with hnear | ⟨gg, hnear⟩
      · have hsnapv :
            (if ¬ is_walkable_grid (world_to_grid goal_x goal_y tile_size).1
                  (world_to_grid goal_x goal_y tile_size).2 obstacles tile_size player_radius
              then find_nearest_walkable (world_to_grid goal_x goal_y tile_size).1
                (world_to_grid goal_x goal_y tile_size).2 obstacles tile_size grid_width
                grid_height player_radius 5
              else some (world_to_grid goal_x goal_y tile_size)) = none := by
          simp [hg, hnear]
        rw [hsnapv]
        have hfp : find_path start_x start_y goal_x goal_y obstacles tile_size grid_width
            grid_height player_radius max_distance fuel = none := by
          simp [find_path, hs, hg, hnear]
        refine ⟨⟨fun _ => Or.inr (Or.inl ⟨hg, hnear⟩), fun _ => hfp⟩, ?_⟩
        rintro - gg hgg
        exact absurd hgg (by simp)
      · have hsnapv :
            (if ¬ is_walkable_grid (world_to_grid goal_x goal_y tile_size).1
                  (world_to_grid goal_x goal_y tile_size).2 obstacles tile_size player_radius
              then find_nearest_walkable (world_to_grid goal_x goal_y tile_size).1
                (world_to_grid goal_x goal_y tile_size).2 obstacles tile_size grid_width
                grid_height player_radius 5
              else some (world_to_grid goal_x goal_y tile_size)) = some gg := by
          simp [hg, hnear]
        rw [hsnapv] at hfuel ⊢
        have hout := hfuel _ rfl
        cases hloop : astar_loop gg obstacles tile_size grid_width grid_height
            player_radius max_distance fuel
            [ANode.node (world_to_grid start_x start_y tile_size).1
              (world_to_grid start_x start_y tile_size).2 0
              (heuristic (world_to_grid start_x start_y tile_size).1
                (world_to_grid start_x start_y tile_size).2 gg.1 gg.2) none] []
            [(((world_to_grid start_x start_y tile_size).1,
               (world_to_grid start_x start_y tile_size).2), 0)] with
        | out => exact absurd hloop hout
        | noPath =>
          have hfp : find_path start_x start_y goal_x goal_y obstacles tile_size grid_width
              grid_height player_radius max_distance fuel = none := by
            simp [find_path, hs, hg, hnear, hloop]
          refine ⟨⟨fun _ => Or.inr (Or.inr ⟨gg, rfl, hloop⟩), fun _ => hfp⟩, ?_⟩
          rintro - gg' hgg
          obtain rfl : gg = gg' := by simpa using hgg
          rw [hfp, hloop]
        | found p =>
          have hfp : find_path start_x start_y goal_x goal_y obstacles tile_size grid_width
              grid_height player_radius max_distance fuel = some p := by
            simp [find_path, hs, hg, hnear, hloop]
          refine ⟨⟨fun h => ?_, fun h => ?_⟩, ?_⟩
          · rw [hfp] at h
            exact absurd h (by simp)
          · rcases h with h | ⟨-, h⟩ | ⟨gg', hgg, hl⟩
            · rw [hs] at h
              exact absurd h (by simp)
            · rw [hnear] at h
              exact absurd h (by simp)
            · obtain rfl : gg = gg' := by simpa using hgg
              rw [hloop] at hl
              exact absurd hl (by simp)
          · rintro - gg' hgg
            obtain rfl : gg = gg' := by simpa using hgg
            rw [hfp, hloop]
  · have hfp : find_path start_x start_y goal_x goal_y obstacles tile_size grid_width
        grid_height player_radius max_distance fuel = none := by
      simp [find_path, hs]
    exact ⟨⟨fun _ => Or.inl hs, fun _ => hfp⟩, fun hs' => by simp [hs'] at hs⟩

set_option maxRecDepth 1000000 in
/-- Witness for C5: open 2×2 grid, walkable start and goal; the search finds a
path, so the failure disjunction is false on both sides. -/
theorem C5_failure_taxonomy_witness :
    find_path 32 32 96 96 ([] : List (Obstacle ℚ)) 64 2 2 10 none 10 = none ↔
      (is_walkable_grid ((0 : ℤ), (0 : ℤ)).1 ((0 : ℤ), (0 : ℤ)).2 [] 64 10 = false ∨
       (is_walkable_grid ((1 : ℤ), (1 : ℤ)).1 ((1 : ℤ), (1 : ℤ)).2 [] 64 10 = false ∧
         find_nearest_walkable ((1 : ℤ), (1 : ℤ)).1 ((1 : ℤ), (1 : ℤ)).2 [] 64 2 2 10 5 =
           none) ∨
       (∃ gg, (some (((1 : ℤ), (1 : ℤ))) : Option (ℤ × ℤ)) = some gg ∧
         astar_loop gg [] 64 2 2 10 none 10
           [ANode.node ((0 : ℤ), (0 : ℤ)).1 ((0 : ℤ), (0 : ℤ)).2 0
             (heuristic ((0 : ℤ), (0 : ℤ)).1 ((0 : ℤ), (0 : ℤ)).2 gg.1 gg.2) none] []
           [((((0 : ℤ), (0 : ℤ)).1, ((0 : ℤ), (0 : ℤ)).2), 0)] = .noPath)) :=
  (C5_failure_taxonomy 32 32 96 96 [] 64 2 2 10 none 10 (0, 0) (1, 1) (some (1, 1))
    (by decide) (by decide) (by decide) (fun gg h => by
      obtain rfl : ((1 : ℤ), (1 : ℤ)) = gg := by simpa using h
      decide)).1
/-! ### utils.py / entities.py — ray-cast visibility geometry over `ℝ` -/

/-- `get_distance`: Euclidean distance. -/
noncomputable def get_distance (x1 y1 x2 y2 : ℝ) : ℝ :=
  Real.sqrt ((x2 - x1) ^ 2 + (y2 - y1) ^ 2)

/-- `get_angle_to_point`: `math.degrees(math.atan2(to_y - from_y, to_x - from_x))`.
`math.atan2 y x` is the argument of the complex number `x + y·i` (in `(-π, π]`). -/
noncomputable def get_angle_to_point (from_x from_y to_x to_y : ℝ) : ℝ :=
  Complex.arg ⟨to_x - from_x, to_y - from_y⟩ * 180 / Real.pi

/-- The two normalization loops of `angle_difference`
(`while diff > 180: diff -= 360`, then `while diff < -180: diff += 360`) in
closed form: for `diff > 180` the first loop runs `⌈(diff-180)/360⌉` times and
lands in `(-180, 180]`; for `diff < -180` the second runs `⌈(-180-diff)/360⌉`
times and lands in `[-180, 180)`; otherwise `diff` is already in `[-180, 180]`
and is returned unchanged. -/
noncomputable def wrap_deg (diff : ℝ) : ℝ :=
  if 180 < diff then diff - 360 * ⌈(diff - 180) / 360⌉
  else if diff < -180 then diff + 360 * ⌈(-180 - diff) / 360⌉
  else diff

/-- `angle_difference`: smallest difference between two angles, in [-180, 180]. -/
noncomputable def angle_difference (angle1 angle2 : ℝ) : ℝ :=
  wrap_deg (angle2 - angle1)

theorem wrap_deg_mem (d : ℝ) : -180 ≤ wrap_deg d ∧ wrap_deg d ≤ 180 := by
  unfold wrap_deg
  split_ifs with h1 h2
  · have hk1 : (d - 180) / 360 ≤ (⌈(d - 180) / 360⌉ : ℝ) := Int.le_ceil _
    have hk2 : ((⌈(d - 180) / 360⌉ : ℤ) : ℝ) < (d - 180) / 360 + 1 := Int.ceil_lt_add_one _
    rw [div_le_iff₀ (by norm_num : (0 : ℝ) < 360)] at hk1
    constructor
    · nlinarith
    · nlinarith
  · have hk1 : (-180 - d) / 360 ≤ (⌈(-180 - d) / 360⌉ : ℝ) := Int.le_ceil _
    have hk2 : ((⌈(-180 - d) / 360⌉ : ℤ) : ℝ) < (-180 - d) / 360 + 1 := Int.ceil_lt_add_one _
    rw [div_le_iff₀ (by norm_num : (0 : ℝ) < 360)] at hk1
    constructor
    · nlinarith
    · nlinarith
  · push_neg at h1 h2
    exact ⟨h2, h1⟩

theorem wrap_deg_sub (d : ℝ) : ∃ m : ℤ, wrap_deg d = d - 360 * m := by
  unfold wrap_deg
  split_ifs
  · exact ⟨⌈(d - 180) / 360⌉, rfl⟩
  · exact ⟨-⌈(-180 - d) / 360⌉, by push_cast; ring⟩
  · exact ⟨0, by norm_num⟩

theorem abs_eq_of_mem_sub_int (x y : ℝ) (m : ℤ) (hx1 : -180 ≤ x) (hx2 : x ≤ 180)
    (hy1 : -180 ≤ y) (hy2 : y ≤ 180) (hxy : x - y = 360 * m) : |x| = |y| := by
  have hm1 : -1 ≤ m := by
    by_contra hc
    push_neg at hc
    have hm : m ≤ -2 := by omega
    have : (m : ℝ) ≤ -2 := by exact_mod_cast hm
    nlinarith
  have hm2 : m ≤ 1 := by
    by_contra hc
    push_neg at hc
    have hm : 2 ≤ m := by omega
    have : (2 : ℝ) ≤ (m : ℝ) := by exact_mod_cast hm
    nlinarith
  interval_cases m
  · have hx : x = -180 := by push_cast at hxy; linarith
    have hy : y = 180 := by push_cast at hxy; linarith
    rw [hx, hy]
    norm_num
  · have : x = y := by push_cast at hxy; linarith
    rw [this]
  · have hx : x = 180 := by push_cast at hxy; linarith
    have hy : y = -180 := by push_cast at hxy; linarith
    rw [hx, hy]
    norm_num

theorem wrap_deg_abs_period (d : ℝ) (k : ℤ) : |wrap_deg (d + 360 * k)| = |wrap_deg d| := by
  obtain ⟨m1, h1⟩ := wrap_deg_sub (d + 360 * k)
  obtain ⟨m2, h2⟩ := wrap_deg_sub d
  have hx := wrap_deg_mem (d + 360 * k)
  have hy := wrap_deg_mem d
  refine abs_eq_of_mem_sub_int _ _ (k - m1 + m2) (h1 ▸ hx.1) (h1 ▸ hx.2)
    (h2 ▸ hy.1) (h2 ▸ hy.2) ?_
  rw [h1, h2]
  push_cast
  ring

/-- `is_point_in_cone` (`utils.py` lines 183-207): within range, and the
absolute shortest-arc angular difference between the cone's facing and the
bearing to the point is at most half the field of view. -/
def is_point_in_cone (point_x point_y cone_x cone_y cone_angle cone_fov
    max_distance : ℝ) : Prop :=
  get_distance cone_x cone_y point_x point_y ≤ max_distance ∧
  |angle_difference cone_angle (get_angle_to_point cone_x cone_y point_x point_y)| ≤
    cone_fov / 2

/-- C7: `is_point_in_cone` is invariant under shifting the facing angle by any
multiple of 360°; the absolute angular difference is invariant under shifting
the bearing by any multiple of 360° (so a bearing of −179° and one of +181°
are judged identically); and `angle_difference` always lands in [-180, 180]
(shortest-arc normalization). -/
theorem C7_cone_angle_wraparound :
    (∀ (point_x point_y cone_x cone_y cone_angle cone_fov max_distance : ℝ) (k : ℤ),
      is_point_in_cone point_x point_y cone_x cone_y (cone_angle + 360 * k) cone_fov
          max_distance ↔
        is_point_in_cone point_x point_y cone_x cone_y cone_angle cone_fov max_distance) ∧
    (∀ (a b : ℝ) (k : ℤ), |angle_difference a (b + 360 * k)| = |angle_difference a b|) ∧
    (∀ a b : ℝ, -180 ≤ angle_difference a b ∧ angle_difference a b ≤ 180) ∧
    angle_difference 180 (-179) = angle_difference 180 181 := by
  have habs : ∀ (a b : ℝ) (k : ℤ), |angle_difference a (b + 360 * k)| =
      |angle_difference a b| := by
    intro a b k
    unfold angle_difference
    rw [show b + 360 * (k : ℝ) - a = (b - a) + 360 * k by ring, wrap_deg_abs_period]
  refine ⟨?_, habs, fun a b => wrap_deg_mem _, ?_⟩
  · intro point_x point_y cone_x cone_y cone_angle cone_fov max_distance k
    unfold is_point_in_cone angle_difference
    have harg : get_angle_to_point cone_x cone_y point_x point_y -
        (cone_angle + 360 * k) =
        (get_angle_to_point cone_x cone_y point_x point_y - cone_angle) + 360 * (-k : ℤ) := by
      push_cast
      ring
    rw [harg, wrap_deg_abs_period]
  · unfold angle_difference
    have h1 : (-179 : ℝ) - 180 = -359 := by norm_num
    have h2 : (181 : ℝ) - 180 = 1 := by norm_num
    rw [h1, h2]
    unfold wrap_deg
    rw [if_neg (by norm_num), if_pos (by norm_num)]
    rw [if_neg (by norm_num), if_neg (by norm_num)]
    have hc : ⌈(-180 - (-359 : ℝ)) / 360⌉ = 1 := by
      rw [Int.ceil_eq_iff]
      norm_num
    rw [hc]
    norm_num
/-- `line_segment_intersection` (`utils.py` lines 98-119): parametric
intersection of two segments; near-parallel (|denom| < 1e-10) yields none. -/
noncomputable def line_segment_intersection (x1 y1 x2 y2 x3 y3 x4 y4 : ℝ) :
    Option (ℝ × ℝ) :=
  let denom := (x1 - x2) * (y3 - y4) - (y1 - y2) * (x3 - x4)
  if |denom| < 1e-10 then none
  else
    let t := ((x1 - x3) * (y3 - y4) - (y1 - y3) * (x3 - x4)) / denom
    let u := -((x1 - x2) * (y1 - y3) - (y1 - y2) * (x1 - x3)) / denom
    if 0 ≤ t ∧ t ≤ 1 ∧ 0 ≤ u ∧ u ≤ 1 then
      some (x1 + t * (x2 - x1), y1 + t * (y2 - y1))
    else none

/-- `line_rectangle_intersection` (`utils.py` lines 46-95): test the segment
against the four rectangle edges (top, bottom, left, right, in source order)
and return the intersection closest to the segment start (Python `min` keeps
the first minimum). -/
noncomputable def line_rectangle_intersection (x1 y1 x2 y2 rect_x rect_y
    rect_width rect_height : ℝ) : Option (ℝ × ℝ) :=
  let left := rect_x - rect_width / 2
  let right := rect_x + rect_width / 2
  let bottom := rect_y - rect_height / 2
  let top := rect_y + rect_height / 2
  let intersections :=
    [line_segment_intersection x1 y1 x2 y2 left top right top,
     line_segment_intersection x1 y1 x2 y2 left bottom right bottom,
     line_segment_intersection x1 y1 x2 y2 left bottom left top,
     line_segment_intersection x1 y1 x2 y2 right bottom right top].filterMap id
  match intersections with
  | [] => none
  | p :: rest =>
    some (rest.foldl (fun best q =>
      if (q.1 - x1) ^ 2 + (q.2 - y1) ^ 2 < (best.1 - x1) ^ 2 + (best.2 - y1) ^ 2 then q
      else best) p)

/-- `has_line_of_sight` (`utils.py` lines 122-140): clear iff the segment
intersects no obstacle rectangle. -/
def has_line_of_sight (x1 y1 x2 y2 : ℝ) (obstacles : List (Obstacle ℝ)) : Prop :=
  ∀ o ∈ obstacles,
    line_rectangle_intersection x1 y1 x2 y2 o.center_x o.center_y o.width o.height = none

open Classical in
/-- `Enemy._check_player_vision` (`entities.py` lines 561-579): false for a
dead player; else false outside the vision cone; else the line-of-sight
test. -/
def check_player_vision (alive : Bool) (player_x player_y enemy_x enemy_y
    vision_angle fov vision_range : ℝ) (obstacles : List (Obstacle ℝ)) : Prop :=
  if alive = false then False
  else if ¬ is_point_in_cone player_x player_y enemy_x enemy_y vision_angle fov
      vision_range then False
  else has_line_of_sight enemy_x enemy_y player_x player_y obstacles

/-- C6 (amended): the visibility query is `pointInCone AND hasLineOfSight`
conjoined with the target being alive — the alive flag is a further input the
claim omitted. -/
theorem C6_check_player_vision_iff (alive : Bool) (player_x player_y enemy_x enemy_y
    vision_angle fov vision_range : ℝ) (obstacles : List (Obstacle ℝ)) :
    check_player_vision alive player_x player_y enemy_x enemy_y vision_angle fov
        vision_range obstacles ↔
      alive = true ∧
      is_point_in_cone player_x player_y enemy_x enemy_y vision_angle fov vision_range ∧
      has_line_of_sight enemy_x enemy_y player_x player_y obstacles := by
  unfold check_player_vision
  cases alive with
  | false => simp
  | true =>
    by_cases hc : is_point_in_cone player_x player_y enemy_x enemy_y vision_angle fov
        vision_range
    · simp [hc]
    · simp [hc]

theorem arg_fifty : Complex.arg ⟨(50 : ℝ) - 0, (0 : ℝ) - 0⟩ = 0 := by
  have : (⟨(50 : ℝ) - 0, (0 : ℝ) - 0⟩ : ℂ) = ((50 : ℝ) : ℂ) := by
    apply Complex.ext <;> simp
  rw [this]
  exact Complex.arg_ofReal_of_nonneg (by norm_num)

theorem cone_fifty : is_point_in_cone 50 0 0 0 0 60 100 := by
  constructor
  · unfold get_distance
    rw [show ((50 : ℝ) - 0) ^ 2 + ((0 : ℝ) - 0) ^ 2 = 2500 by norm_num]
    rw [show (2500 : ℝ) = 50 ^ 2 by norm_num, Real.sqrt_sq (by norm_num)]
    norm_num
  · unfold angle_difference get_angle_to_point
    rw [arg_fifty]
    rw [show (0 : ℝ) * 180 / Real.pi - 0 = 0 by ring]
    unfold wrap_deg
    rw [if_neg (by norm_num), if_neg (by norm_num)]
    norm_num

/-- C6 (counterexample to the claim as stated): a dead target at (50, 0), in
cone and in clear line of sight of an observer at the origin facing 0° with
fov 60° and range 100, is reported not visible: `canSee` is not determined by
`pointInCone AND hasLineOfSight` alone. -/
theorem C6_counterexample :
    ¬ (check_player_vision false 50 0 0 0 0 60 100 [] ↔
        is_point_in_cone 50 0 0 0 0 60 100 ∧ has_line_of_sight 0 0 50 0 []) := by
  intro h
  have hrhs : is_point_in_cone 50 0 0 0 0 60 100 ∧ has_line_of_sight 0 0 50 0 [] :=
    ⟨cone_fifty, fun o ho => absurd ho (List.not_mem_nil o)⟩
  have hlhs := h.2 hrhs
  unfold check_player_vision at hlhs
  simp at hlhs
end HunterAI
